import Mathlib

/-!
Verification of the pdsv_opensim conversion scripts.

The repository holds two Python scripts converting Visual3D marker-trajectory
exports to OpenSim TRC files:

* `scripts/v3d_to_trc.py` — `read_raw_v3d_export_file`, `get_all_v3d_trajectories`
  and `convert_df_to_trc`;
* `scripts/ascii_to_trc.py` — `convert_to_trc`.

The embedding models a pandas cell as `Option ℚ` (`none` is NaN / a missing
value; coordinate arithmetic is modelled exactly over the rationals), a
DataFrame as an indexed column list, and the written TRC file as a list of
structured output lines (`OutLine`), abstracting the fixed-precision decimal
formatting of the text file.  Python loops over lists become structural
recursion; Python exceptions (`KeyError`, `IndexError`, `ValueError`, the
pandas tokenizer error) become `Except String`.
-/

namespace Pdsv

/-- One pandas cell: `none` models NaN / a missing value. -/
abbrev Val := Option ℚ

/-- A pandas DataFrame with an integer (frame) index: the index labels in row
order, and the columns in column order, each column carrying one value per
index entry. -/
structure DataFrame where
  index : List Int
  cols : List (String × List Val)
deriving DecidableEq, Inhabited

/-! ### Python-level helpers (strings, list indexing, int conversion) -/

/-- Python `str.endswith(sfx)`, on the character list of the string. -/
def pyEndsWith (s sfx : String) : Bool :=
  s.data.reverse.take sfx.data.length = sfx.data.reverse

/-- Python slice `s[:-2]`: every character but the last two. -/
def pyDropLast2 (s : String) : String :=
  ⟨s.data.take (s.data.length - 2)⟩

/-- Python `s.split('\t')` (with an explicit separator `'\t'`; note
`''.split('\t') == ['']`). -/
def splitTabAux : List Char → List Char → List String
  | [], acc => [⟨acc.reverse⟩]
  | c :: cs, acc =>
    if c = '\t' then ⟨acc.reverse⟩ :: splitTabAux cs []
    else splitTabAux cs (c :: acc)

def pySplitTab (s : String) : List String := splitTabAux s.data []

/-- Python `str.strip()`: drop leading and trailing whitespace. -/
def pyStrip (s : String) : String :=
  ⟨((s.data.dropWhile Char.isWhitespace).reverse.dropWhile Char.isWhitespace).reverse⟩

/-- The effective position of Python list indexing: negative indices count
from the end. -/
def pyIdxNorm (l : List String) (i : Int) : Int :=
  if i < 0 then i + l.length else i

/-- Python list indexing `l[i]` with negative indices counted from the end;
out-of-range raises `IndexError`. -/
def pyGetIdx (l : List String) (i : Int) : Except String String :=
  if h : 0 ≤ pyIdxNorm l i ∧ (pyIdxNorm l i).toNat < l.length then
    .ok (l.get ⟨(pyIdxNorm l i).toNat, h.2⟩)
  else .error "IndexError: list index out of range"

/-- Python `l.index(x)`: position of the first occurrence, `ValueError` if
absent. -/
def pyListIndex (l : List String) (x : String) : Except String Nat :=
  match l.findIdx? (fun y => y = x) with
  | some j => .ok j
  | none => .error "ValueError: x is not in list"

/-- Python `int(v)` on a float cell: truncation toward zero; `ValueError` on
NaN. -/
def pyInt (v : Val) : Except String Int :=
  match v with
  | none => .error "ValueError: cannot convert float NaN to integer"
  | some q => .ok (Int.tdiv q.num q.den)

/-! ### Monadic list traversals (the Python `for` loops) -/

/-- A Python `for` loop building a list of results, aborting at the first
raised exception. -/
def mapE {α β : Type} (f : α → Except String β) : List α → Except String (List β)
  | [] => .ok []
  | a :: l =>
    match f a with
    | .error e => .error e
    | .ok b =>
      match mapE f l with
      | .error e => .error e
      | .ok bs => .ok (b :: bs)

/-- A Python `for` loop threading a state, aborting at the first raised
exception. -/
def foldE {σ α : Type} (f : σ → α → Except String σ) : σ → List α → Except String σ
  | s, [] => .ok s
  | s, a :: l =>
    match f s a with
    | .error e => .error e
    | .ok s2 => foldE f s2 l

/-! ### The written TRC file, one structured line per text line -/

/-- One written coordinate slot of a data row: `none` is a blank field
(`\t` with no text), `some none` is a NaN printed by the float formatter,
`some (some q)` is the number `q` at the declared precision. -/
abbrev OutField := Option Val

/-- One line of the written TRC file.  String formatting at fixed decimal
precision is abstracted: numeric payloads are kept as exact values. -/
inductive OutLine where
  | pathLine (path : String)
  | metaNames
  | metaVals (dataRate cameraRate : ℚ) (numFrames numMarkers : Nat)
      (units : String) (origDataRate : ℚ) (origDataStartFrame : Int)
      (origNumFrames : Nat)
  | markerRow (markers : List String)
  | axisRow (labels : List String)
  | dataRow (frame : Int) (time : Val) (fields : List OutField)
deriving DecidableEq

/-- The streamed result of a writer run: the lines actually written to the
open output file before termination, and the exception (if any) that aborted
the run.  Mirrors `with open(path, 'w') as f: ...`, which leaves the lines
written so far in the file when an exception escapes the loop. -/
structure WriteResult where
  lines : List OutLine
  error : Option String
deriving DecidableEq

/-! ### v3d_to_trc.py: gap filling, scaling, marker extraction -/

/-- `pd.isna(df).any().any()`: some cell of some column is missing. -/
def hasNaN (df : DataFrame) : Bool :=
  df.cols.any (fun c => c.2.any (fun v => v.isNone))

/-- Position and value of the last known sample at a position `< k`
(scanning downward). -/
def lastKnownBefore (vs : List Val) : Nat → Option (Nat × ℚ)
  | 0 => none
  | k+1 =>
    match vs.getD k none with
    | some v => some (k, v)
    | none => lastKnownBefore vs k

def firstKnownFromAux (vs : List Val) : Nat → Nat → Option (Nat × ℚ)
  | _, 0 => none
  | k, fuel+1 =>
    match vs.getD k none with
    | some v => some (k, v)
    | none => firstKnownFromAux vs (k+1) fuel

/-- Position and value of the first known sample at a position `≥ k`. -/
def firstKnownFrom (vs : List Val) (k : Nat) : Option (Nat × ℚ) :=
  firstKnownFromAux vs k (vs.length - k)

/-- One cell of `Series.interpolate(method='linear', limit_direction='both')`:
`method='linear'` treats the samples as equally spaced (it ignores the index),
interior gaps get the linear interpolation of the nearest known neighbours,
and with `limit_direction='both'` a gap before the first (after the last)
known sample is filled with that nearest known value.  A column with no known
sample stays missing. -/
def fillCell (vs : List Val) (i : Nat) : Val :=
  match vs.getD i none with
  | some v => some v
  | none =>
    match lastKnownBefore vs i, firstKnownFrom vs (i+1) with
    | some (p, vp), some (q, vq) =>
        some (vp + (vq - vp) * (((i : ℚ) - p) / ((q : ℚ) - p)))
    | some (_, vp), none => some vp
    | none, some (_, vq) => some vq
    | none, none => none

def interpolateColumn (vs : List Val) : List Val :=
  (List.range vs.length).map (fillCell vs)

/-- `df.interpolate(method='linear', limit_direction='both')`, column-wise. -/
def interpolateDF (df : DataFrame) : DataFrame :=
  ⟨df.index, df.cols.map (fun c => (c.1, interpolateColumn c.2))⟩

/-- `df * 1000.0` (and any constant scaling): NaN stays NaN. -/
def scaleDF (k : ℚ) (df : DataFrame) : DataFrame :=
  ⟨df.index, df.cols.map (fun c => (c.1, c.2.map (fun v => v.map (fun q => q * k))))⟩

/-- The conditional gap-filling step of `convert_df_to_trc`
(`if df.isna().any().any(): df = df.interpolate(...)`). -/
def v3dInterp (df : DataFrame) : DataFrame :=
  if hasNaN df then interpolateDF df else df

/-- The table actually serialized by `convert_df_to_trc`: gap filling, then
`df = df * 1000.0`. -/
def v3dProcess (df : DataFrame) : DataFrame :=
  scaleDF 1000 (v3dInterp df)

/-- One column of the marker-name extraction loop of `convert_df_to_trc`. -/
def extractStep (ms : List String) (col : String) : List String :=
  if pyEndsWith col "_X" || pyEndsWith col "_Y" || pyEndsWith col "_Z" then
    let m := pyDropLast2 col
    if m ∈ ms then ms else ms ++ [m]
  else ms

/-- Marker-name extraction of `convert_df_to_trc`: for each column ending in
`_X`, `_Y` or `_Z`, the name with the last two characters sliced off, first
occurrences kept in column order. -/
def extractMarkers (cols : List String) : List String :=
  cols.foldl extractStep []

/-! ### v3d_to_trc.py: the TRC writer -/

/-- `df.loc[frame, col]`: `KeyError` when the column or the index label is
absent; the first matching column / index position is read. -/
def v3dLoc (df : DataFrame) (frame : Int) (col : String) : Except String Val :=
  match df.cols.find? (fun c => c.1 = col) with
  | none => .error ("KeyError: " ++ col)
  | some c =>
    match df.index.findIdx? (fun x => x = frame) with
    | none => .error "KeyError: frame"
    | some i => .ok (c.2.getD i none)

/-- The three written slots for one marker at one frame
(`transformed_x = x_val; transformed_y = z_val; transformed_z = -y_val`). -/
def v3dMarkerFields (df : DataFrame) (frame : Int) (m : String) :
    Except String (List Val) := do
  let x ← v3dLoc df frame (m ++ "_X")
  let y ← v3dLoc df frame (m ++ "_Y")
  let z ← v3dLoc df frame (m ++ "_Z")
  pure [x, z, y.map (fun v => -v)]

/-- One data line of the v3d writer: frame, `time_column[i]`, then every
marker's three transformed coordinates. -/
def v3dDataLine (df : DataFrame) (markers : List String) (frame : Int)
    (time : ℚ) : Except String OutLine := do
  let groups ← mapE (v3dMarkerFields df frame) markers
  pure (.dataRow frame (some time) (groups.flatten.map some))

/-- One iteration of the v3d data-row loop: an exception discards the rest of
the loop, a written line is prepended to whatever the remaining iterations
write. -/
def v3dWriteStep (res : Except String OutLine)
    (rest : List OutLine × Option String) : List OutLine × Option String :=
  match res with
  | .error e => ([], some e)
  | .ok line => (line :: rest.1, rest.2)

/-- The data-row loop of `convert_df_to_trc`: rows written one at a time,
stopping at the first exception. -/
def v3dWriteRows (df : DataFrame) (markers : List String) :
    List (Int × ℚ) → List OutLine × Option String
  | [] => ([], none)
  | ft :: rest =>
    v3dWriteStep (v3dDataLine df markers ft.1 ft.2) (v3dWriteRows df markers rest)

/-- `convert_df_to_trc(trajectories_df, output_filepath, frame_rate, units)`:
copy, gap-fill, scale to millimetres, derive the marker list from the column
names, then stream the five header lines and one data row per frame into the
output file.  `df.index[0]` is read before the file is opened, so an empty
index aborts with nothing written. -/
def convert_df_to_trc (trajectories_df : DataFrame) (output_filepath : String)
    (frame_rate : ℚ) (units : String) : WriteResult :=
  let df := v3dProcess trajectories_df
  let markers := extractMarkers (df.cols.map Prod.fst)
  let num_markers := markers.length
  let num_frames := df.index.length
  match df.index.head? with
  | none => ⟨[], some "IndexError: index 0 is out of bounds"⟩
  | some start_frame =>
    let time_column := df.index.map (fun (f : Int) => (f : ℚ) / frame_rate)
    let header : List OutLine :=
      [.pathLine output_filepath,
       .metaNames,
       .metaVals frame_rate frame_rate num_frames num_markers units frame_rate
         start_frame num_frames,
       .markerRow markers,
       .axisRow ((List.range num_markers).flatMap
         (fun i => ["X" ++ toString (i+1), "Y" ++ toString (i+1),
                    "Z" ++ toString (i+1)]))]
    let r := v3dWriteRows df markers (df.index.zip time_column)
    ⟨header ++ r.1, r.2⟩

/-- The column-binding merge of `get_all_v3d_trajectories`
(`pd.concat([landmarks, targets], axis=1)`), modelled for two tables aligned
on the same frame index (the theorems below assume aligned inputs; the outer
join on mismatched indices is not needed by any claim settled here).  File
reading and the module-level globals of the source are outside the table
model. -/
def get_all_v3d_trajectories (landmarks targets : DataFrame) : DataFrame :=
  ⟨landmarks.index, landmarks.cols ++ targets.cols⟩

/-! ### ascii_to_trc.py: the input files and the output table -/

/-- One input file of `convert_to_trc`, as the script reads it: the raw
marker-name header line (line 2 of the file, already split on tabs), and the
table `pd.read_csv(file, sep='\t', skiprows=4)` yields — the column names
pandas derives from line 5 (`ITEM`, then the axis labels, made unique), and
the parsed numeric data rows below it. -/
structure AsciiFile where
  markerLine : List String
  cols : List String
  rows : List (List Val)
deriving DecidableEq

/-- A column of the parsed file selected by name (`df[name]`), reading the
first matching column; callers below always pass a name drawn from
`f.cols`, so the out-of-range fallback `[]` is never reached. -/
def fileCol (f : AsciiFile) (name : String) : List Val :=
  match f.cols.findIdx? (fun c => c = name) with
  | some j => f.rows.map (fun row => row.getD j none)
  | none => []

/-- `pd.isna(series).all()` (true on an empty series). -/
def allNone (vs : List Val) : Bool := vs.all (fun v => v.isNone)

/-- Index alignment of `trc_df[name] = series` against the writer's
`RangeIndex(num_frames)`: missing positions become NaN, extra rows are
dropped. -/
def alignTo (n : Nat) (vs : List Val) : List Val :=
  (List.range n).map (fun i => vs.getD i none)

/-- The output table `trc_df` being built (its row index is
`RangeIndex(numRows)`). -/
structure TrcDf where
  numRows : Nat
  cols : List (String × List Val)
deriving DecidableEq

def TrcDf.colNames (df : TrcDf) : List String := df.cols.map Prod.fst

/-- `trc_df[name] = series`: replace the column in place if the name exists,
append it otherwise, in both cases after index alignment. -/
def TrcDf.setCol (df : TrcDf) (name : String) (vs : List Val) : TrcDf :=
  let vs := alignTo df.numRows vs
  if name ∈ df.colNames then
    ⟨df.numRows, df.cols.map (fun c => if c.1 = name then (name, vs) else c)⟩
  else
    ⟨df.numRows, df.cols ++ [(name, vs)]⟩

/-- `trc_df.loc[i, name]`: `KeyError` when the column is absent (`i` itself is
always a label of the RangeIndex in the write loop). -/
def trcLoc (df : TrcDf) (name : String) (i : Nat) : Except String Val :=
  match df.cols.find? (fun c => c.1 = name) with
  | none => .error ("KeyError: " ++ name)
  | some c => .ok (c.2.getD i none)

/-- The `Frame#` column: `np.arange(1, num_frames + 1)`. -/
def frameNumCol (n : Nat) : List Val :=
  (List.range n).map (fun (i : Nat) => some ((i : ℚ) + 1))

/-- The `Time` column: `np.arange(num_frames) / frame_rate`. -/
def timeCol (n : Nat) (frame_rate : ℚ) : List Val :=
  (List.range n).map (fun (i : Nat) => some ((i : ℚ) / frame_rate))

/-- Non-empty tokens of the marker-name header line. -/
def filteredNames (markerLine : List String) : List String :=
  markerLine.filter (fun s => s ≠ "")

/-- `for i in range(0, len(l), 3): out.append(l[i])` — every third entry. -/
def everyThird : List String → List String
  | [] => []
  | [a] => [a]
  | [a, _] => [a]
  | a :: _ :: _ :: l => a :: everyThird l

/-- `marker_cols.index(key) if key in marker_cols else -1` (an `int`). -/
def pyIndexOr (l : List String) (key : String) : Int :=
  match l.findIdx? (fun c => c = key) with
  | some j => (j : Int)
  | none => -1

/-- The landmark-marker loop body of `convert_to_trc`.  The selected column
names are `landmark_cols[marker_cols.index(marker + '\tX')]` when that
tab-containing name occurs among the columns and `landmark_cols[-1]` (the last
column) otherwise; the subsequent source test `x_col != -1` compares a string
against the integer `-1` and is therefore always true in Python, so it is not
a branch here. -/
def landmarkStep (landmarks : AsciiFile) (st : TrcDf × List String)
    (marker : String) : Except String (TrcDf × List String) := do
  let landmark_cols := landmarks.cols
  let marker_cols := landmark_cols.filter (fun c => c ≠ "ITEM")
  let x_col ← pyGetIdx landmark_cols (pyIndexOr marker_cols (marker ++ "\tX"))
  let y_col ← pyGetIdx landmark_cols (pyIndexOr marker_cols (marker ++ "\tY"))
  let z_col ← pyGetIdx landmark_cols (pyIndexOr marker_cols (marker ++ "\tZ"))
  if ¬ allNone (fileCol landmarks x_col) then
    let df := ((st.1.setCol (marker ++ "_X") (fileCol landmarks x_col)).setCol
        (marker ++ "_Y") (fileCol landmarks y_col)).setCol
        (marker ++ "_Z") (fileCol landmarks z_col)
    pure (df, st.2 ++ [marker])
  else
    pure st

/-- The target-marker loop body of `convert_to_trc`: positional column
selection `target_cols[marker_names_line.index(marker) + k]`, `k = 0, 1, 2`. -/
def targetStep (targets : AsciiFile) (st : TrcDf × List String)
    (marker : String) : Except String (TrcDf × List String) := do
  let marker_names_line := filteredNames targets.markerLine
  let target_cols := targets.cols
  let x_idx ← pyListIndex marker_names_line marker
  let y_idx := x_idx + 1
  let z_idx := x_idx + 2
  let x_col ← pyGetIdx target_cols (x_idx : Int)
  let y_col ← pyGetIdx target_cols (y_idx : Int)
  let z_col ← pyGetIdx target_cols (z_idx : Int)
  if ¬ allNone (fileCol targets x_col) then
    let df := ((st.1.setCol (marker ++ "_X") (fileCol targets x_col)).setCol
        (marker ++ "_Y") (fileCol targets y_col)).setCol
        (marker ++ "_Z") (fileCol targets z_col)
    pure (df, st.2 ++ [marker])
  else
    pure st

/-- The three written slots for one marker of one ascii data row: the stored
values when the marker's `_X` column exists (the `_Y` and `_Z` reads are
unguarded in the source), three blank fields otherwise. -/
def asciiMarkerFields (trc_df : TrcDf) (i : Nat) (m : String) :
    Except String (List OutField) := do
  if (m ++ "_X") ∈ trc_df.colNames then
    let x ← trcLoc trc_df (m ++ "_X") i
    let y ← trcLoc trc_df (m ++ "_Y") i
    let z ← trcLoc trc_df (m ++ "_Z") i
    pure [some x, some y, some z]
  else
    pure [none, none, none]

/-- One ascii data row: `int(trc_df.loc[i, 'Frame#'])`, the Time value, then
every marker's slots. -/
def asciiDataRow (trc_df : TrcDf) (all_markers : List String) (i : Nat) :
    Except String OutLine := do
  let frv ← trcLoc trc_df "Frame#" i
  let fr ← pyInt frv
  let t ← trcLoc trc_df "Time" i
  let groups ← mapE (asciiMarkerFields trc_df i) all_markers
  pure (.dataRow fr t groups.flatten)

/-- `convert_to_trc(landmarks_file, targets_file, output_file, frame_rate)`:
build `trc_df` (Frame#, Time, then one column triple per marker with data,
landmarks first), then write the five header lines and one data row per
landmarks-file row.  The result is the complete written file on success; an
exception aborts the run (the streamed truncation behaviour on error is
modelled for the v3d writer, whose `WriteResult` keeps the partial lines). -/
def convert_to_trc (landmarks targets : AsciiFile) (output_file : String)
    (frame_rate : ℚ) : Except String (List OutLine) := do
  let num_frames := landmarks.rows.length
  let trc0 : TrcDf :=
    ⟨num_frames, [("Frame#", frameNumCol num_frames),
                  ("Time", timeCol num_frames frame_rate)]⟩
  let unique_markers := everyThird (filteredNames landmarks.markerLine)
  let st1 ← foldE (landmarkStep landmarks) (trc0, []) unique_markers
  let unique_target_markers := everyThird (filteredNames targets.markerLine)
  let st2 ← foldE (targetStep targets) (st1.1, []) unique_target_markers
  let landmark_markers := st1.2
  let target_markers := st2.2
  let trc_df := st2.1
  let all_markers := landmark_markers ++ target_markers
  let num_markers := all_markers.length
  let header : List OutLine :=
    [.pathLine output_file,
     .metaNames,
     .metaVals frame_rate frame_rate num_frames num_markers "mm" frame_rate 1
       num_frames,
     .markerRow all_markers,
     .axisRow (all_markers.flatMap
       (fun m => ["X" ++ m, "Y" ++ m, "Z" ++ m]))]
  let rows ← mapE (asciiDataRow trc_df all_markers) (List.range num_frames)
  pure (header ++ rows)

/-! ### v3d_to_trc.py: the importer `read_raw_v3d_export_file` -/

/-- `f.readline()` for the i-th call: the i-th line, or `""` once the file is
exhausted (Python's `readline` returns the empty string at EOF — it does not
raise). -/
def pyReadline (fileLines : List String) (i : Nat) : String :=
  fileLines.getD i ""

/-- The synthetic column headings of `read_raw_v3d_export_file`, from the
stripped header lines 1, 2 and 5: per-column file tags, non-empty marker-name
tokens, and axis tokens other than `"ITEM"`, combined as
`f"{filename}_{marker}_{axis}"` — `zip` silently truncates to the shortest of
the three lists — with `"ITEM"` prepended for the frame column. -/
def v3dColumnHeadings (line0 line1 line4 : String) : List String :=
  let filename_headers := pySplitTab line0
  let marker_names := (pySplitTab line1).filter (fun s => s ≠ "")
  let axes := (pySplitTab line4).filter (fun s => s ≠ "ITEM")
  "ITEM" ::
    (filename_headers.zip (marker_names.zip axes)).map
      (fun p => p.1 ++ "_" ++ p.2.1 ++ "_" ++ p.2.2)

/-- The table `pd.read_csv(filepath, sep='\t', skiprows=5, names=...)`
produces, at the token level: the given names, and the parsed data rows still
holding their raw cell strings (numeric conversion is orthogonal to the parse
behaviour settled here). -/
structure PdDf where
  names : List String
  rows : List (List String)
deriving DecidableEq

/-- `pd.read_csv(..., sep='\t', names=names)` applied to the data lines:
blank lines are skipped (`skip_blank_lines=True` default), a row with fewer
fields than names is padded with NaN (an empty cell here), and a row with
more fields than the given names raises the reader's tokenizing error
(`on_bad_lines='error'` default; the corner where every row is uniformly
wider, which pandas resolves into an implicit index, is not modelled and no
theorem below depends on this branch). -/
def pdReadCsvTab (names : List String) (dataLines : List String) :
    Except String (List (List String)) :=
  mapE
    (fun l =>
      let fields := pySplitTab l
      if fields.length ≤ names.length then
        .ok ((List.range names.length).map (fun i => fields.getD i ""))
      else
        .error "ParserError: Error tokenizing data")
    (dataLines.filter (fun l => pyStrip l ≠ ""))

/-- `read_raw_v3d_export_file(filepath)`: read five header lines (short files
simply yield empty strings), build the synthetic column headings, parse the
remaining lines, and rename the first column `ITEM` to `Frame`.  (`set_index`
then re-keys the rows by that column; it raises nothing and is immaterial to
the parse behaviour, so the token-level table is returned as is.)  No
validation of any kind is performed by the source. -/
def read_raw_v3d_export_file (fileLines : List String) : Except String PdDf := do
  let header_lines := (List.range 5).map (fun i => pyStrip (pyReadline fileLines i))
  let column_headings := v3dColumnHeadings (header_lines.getD 0 "")
      (header_lines.getD 1 "") (header_lines.getD 4 "")
  let rows ← pdReadCsvTab column_headings (fileLines.drop 5)
  pure { names := column_headings.map (fun n => if n = "ITEM" then "Frame" else n),
         rows := rows }

/-! ### v3d_to_trc.py: the object-level (heap) view of `convert_df_to_trc` -/

/-- A heap of pandas DataFrame objects: a Python variable holds a reference
(a position); an operation with `inplace=True` would write through the
reference, while the default pandas calls used by the source return fresh
objects, modelled by appending to the heap. -/
def pyAlloc (h : List DataFrame) (df : DataFrame) : List DataFrame × Nat :=
  (h ++ [df], h.length)

/-- The table operations of `convert_df_to_trc` at the object level, following
the source line by line: `df = trajectories_df.copy()` allocates a copy of the
caller's object, the guarded `df = df.interpolate(method='linear',
limit_direction='both')` (no `inplace`) allocates, and `df = df * 1000.0`
allocates.  Returns the final heap together with the reference the
serialization loop reads from. -/
def convert_df_to_trc_heap (h : List DataFrame) (r0 : Nat) :
    List DataFrame × Nat :=
  let p1 := pyAlloc h (h.getD r0 default)
  let p2 :=
    if hasNaN (p1.1.getD p1.2 default) then
      pyAlloc p1.1 (interpolateDF (p1.1.getD p1.2 default))
    else p1
  pyAlloc p2.1 (scaleDF 1000 (p2.1.getD p2.2 default))

/-! ## Helper lemmas -/

/-! ### Strings -/

theorem pyEndsWith_append (m s : String) : pyEndsWith (m ++ s) s = true := by
  simp only [pyEndsWith, String.data_append, List.reverse_append,
    decide_eq_true_eq]
  rw [← List.length_reverse s.data]
  exact List.take_left _ _

theorem pyDropLast2_append (m s : String) (h : s.data.length = 2) :
    pyDropLast2 (m ++ s) = m := by
  simp only [pyDropLast2, String.data_append]
  rw [List.length_append, h, Nat.add_sub_cancel, List.take_left]

theorem append_data_getLast? (m s : String) (h : s.data ≠ []) :
    (m ++ s).data.getLast? = s.data.getLast? := by
  rw [String.data_append]
  exact List.getLast?_append_of_ne_nil _ h

/-- Two strings built by appending suffixes with different final characters
differ. -/
theorem append_ne_of_last {m s t : String} {c d : Char}
    (hs : s.data.getLast? = some c) (ht : t.data.getLast? = some d)
    (hcd : c ≠ d) : m ++ s ≠ t := by
  intro e
  have hne : s.data ≠ [] := by
    intro h0
    rw [h0] at hs
    simp at hs
  have h2 := append_data_getLast? m s hne
  rw [e, ht, hs] at h2
  injection h2 with h3
  exact hcd h3.symm

/-- Right cancellation for string append. -/
theorem string_append_cancel {m m2 s : String} (h : m ++ s = m2 ++ s) :
    m = m2 := by
  have hd : m.data ++ s.data = m2.data ++ s.data := by
    rw [← String.data_append, ← String.data_append, h]
  have h2 := List.append_cancel_right hd
  cases m
  cases m2
  exact congrArg String.mk h2

/-! ### `mapE` and `foldE` -/

theorem mapE_ok_length {α β : Type} {f : α → Except String β} :
    ∀ (l : List α) (ys : List β), mapE f l = .ok ys → ys.length = l.length := by
  intro l
  induction l with
  | nil =>
    intro ys h
    simp [mapE] at h
    simp [← h]
  | cons a l ih =>
    intro ys h
    simp only [mapE] at h
    cases hf : f a with
    | error e => rw [hf] at h; simp at h
    | ok b =>
      rw [hf] at h
      cases hm : mapE f l with
      | error e => rw [hm] at h; simp at h
      | ok bs =>
        rw [hm] at h
        cases h
        simp [ih bs hm]

theorem mapE_ok_getElem {α β : Type} {f : α → Except String β} :
    ∀ (l : List α) (ys : List β), mapE f l = .ok ys →
      ∀ (j : Nat) (a : α), l[j]? = some a →
        ∃ b, ys[j]? = some b ∧ f a = .ok b := by
  intro l
  induction l with
  | nil => intro ys h j a hj; simp at hj
  | cons a0 l ih =>
    intro ys h j a hj
    simp only [mapE] at h
    cases hf : f a0 with
    | error e => rw [hf] at h; simp at h
    | ok b =>
      rw [hf] at h
      cases hm : mapE f l with
      | error e => rw [hm] at h; simp at h
      | ok bs =>
        rw [hm] at h
        cases h
        cases j with
        | zero =>
          simp at hj
          subst hj
          exact ⟨b, by simp, hf⟩
        | succ j =>
          simp at hj
          obtain ⟨b2, hb2, hfb2⟩ := ih bs hm j a hj
          exact ⟨b2, by simpa using hb2, hfb2⟩

theorem mapE_ok_mem {α β : Type} {f : α → Except String β} :
    ∀ (l : List α) (ys : List β), mapE f l = .ok ys →
      ∀ y ∈ ys, ∃ a ∈ l, f a = .ok y := by
  intro l
  induction l with
  | nil =>
    intro ys h y hy
    simp [mapE] at h
    subst h
    simp at hy
  | cons a0 l ih =>
    intro ys h y hy
    simp only [mapE] at h
    cases hf : f a0 with
    | error e => rw [hf] at h; simp at h
    | ok b =>
      rw [hf] at h
      cases hm : mapE f l with
      | error e => rw [hm] at h; simp at h
      | ok bs =>
        rw [hm] at h
        cases h
        rcases List.mem_cons.mp hy with hy | hy
        · exact ⟨a0, List.mem_cons_self _ _, hy ▸ hf⟩
        · obtain ⟨a, ha, hfa⟩ := ih bs hm y hy
          exact ⟨a, List.mem_cons_of_mem _ ha, hfa⟩

theorem foldE_preserve {σ α : Type} {f : σ → α → Except String σ} (P : σ → Prop)
    (hstep : ∀ s a s2, f s a = .ok s2 → P s → P s2) :
    ∀ (l : List α) (s s2 : σ), foldE f s l = .ok s2 → P s → P s2 := by
  intro l
  induction l with
  | nil =>
    intro s s2 h hP
    simp [foldE] at h
    exact h ▸ hP
  | cons a l ih =>
    intro s s2 h hP
    simp only [foldE] at h
    cases hf : f s a with
    | error e => rw [hf] at h; simp at h
    | ok s1 =>
      rw [hf] at h
      exact ih s1 s2 h (hstep s a s1 hf hP)

/-- A loop whose body always succeeds and appends its element to the
accumulated name list runs to completion and appends the whole list. -/
theorem foldE_append_run
    {step : (TrcDf × List String) → String → Except String (TrcDf × List String)}
    (l : List String)
    (h : ∀ m ∈ l, ∀ st : TrcDf × List String,
      ∃ df2, step st m = .ok (df2, st.2 ++ [m])) :
    ∀ st : TrcDf × List String,
      ∃ df2, foldE step st l = .ok (df2, st.2 ++ l) := by
  induction l with
  | nil => intro st; exact ⟨st.1, by simp [foldE]⟩
  | cons a l ih =>
    intro st
    obtain ⟨df2, hstep⟩ := h a (List.mem_cons_self _ _) st
    obtain ⟨df3, hrest⟩ :=
      ih (fun m hm st2 => h m (List.mem_cons_of_mem _ hm) st2) (df2, st.2 ++ [a])
    refine ⟨df3, ?_⟩
    simp only [foldE, hstep]
    rw [hrest]
    simp

/-! ### Marker extraction -/

/-- The three column names one marker contributes, in header order. -/
def tripleColNames (m : String) : List String :=
  [m ++ "_X", m ++ "_Y", m ++ "_Z"]

theorem extractStep_triple (ms : List String) (m sfx : String)
    (h : sfx = "_X" ∨ sfx = "_Y" ∨ sfx = "_Z") :
    extractStep ms (m ++ sfx) = if m ∈ ms then ms else ms ++ [m] := by
  rcases h with rfl | rfl | rfl
  · simp [extractStep, pyEndsWith_append, pyDropLast2_append m "_X" (by decide)]
  · simp [extractStep, pyEndsWith_append, pyDropLast2_append m "_Y" (by decide)]
  · simp [extractStep, pyEndsWith_append, pyDropLast2_append m "_Z" (by decide)]

theorem extract_run (ms : List String) :
    ∀ acc : List String, ms.Nodup → (∀ m ∈ ms, m ∉ acc) →
      List.foldl extractStep acc (ms.flatMap tripleColNames) = acc ++ ms := by
  induction ms with
  | nil => intro acc _ _; simp
  | cons m ms ih =>
    intro acc hnd hdis
    rw [List.flatMap_cons, List.foldl_append]
    have h1 : List.foldl extractStep acc (tripleColNames m) = acc ++ [m] := by
      simp only [tripleColNames, List.foldl_cons, List.foldl_nil]
      rw [extractStep_triple acc m "_X" (Or.inl rfl),
        if_neg (hdis m (List.mem_cons_self _ _))]
      rw [extractStep_triple _ m "_Y" (Or.inr (Or.inl rfl)), if_pos (by simp)]
      rw [extractStep_triple _ m "_Z" (Or.inr (Or.inr rfl)), if_pos (by simp)]
    rw [h1, ih (acc ++ [m]) (List.Nodup.of_cons hnd) ?_]
    · simp
    · intro m2 hm2
      simp only [List.mem_append, List.mem_singleton]
      rintro (h2 | rfl)
      · exact hdis m2 (List.mem_cons_of_mem _ hm2) h2
      · exact (List.nodup_cons.mp hnd).1 hm2

theorem extractMarkers_flatMap (ms : List String) (h : ms.Nodup) :
    extractMarkers (ms.flatMap tripleColNames) = ms := by
  unfold extractMarkers
  simpa using extract_run ms [] h (by simp)

theorem v3dProcess_colNames (df : DataFrame) :
    (v3dProcess df).cols.map Prod.fst = df.cols.map Prod.fst := by
  unfold v3dProcess scaleDF v3dInterp interpolateDF
  by_cases h : hasNaN df <;> simp [h, List.map_map, Function.comp_def]

theorem v3dProcess_index (df : DataFrame) :
    (v3dProcess df).index = df.index := by
  unfold v3dProcess scaleDF v3dInterp interpolateDF
  by_cases h : hasNaN df <;> simp [h]

/-! ### Interpolation -/

theorem lastKnownBefore_isSome (vs : List Val) :
    ∀ (i j : Nat) (v : ℚ), j < i → vs.getD j none = some v →
      (lastKnownBefore vs i).isSome := by
  intro i
  induction i with
  | zero => intro j v hj _; omega
  | succ k ih =>
    intro j v hj hv
    unfold lastKnownBefore
    cases hk : vs.getD k none with
    | some w => simp
    | none =>
      simp only
      by_cases hjk : j = k
      · rw [hjk, hk] at hv; exact absurd hv (by simp)
      · exact ih j v (by omega) hv

theorem firstKnownFromAux_isSome (vs : List Val) :
    ∀ (fuel k j : Nat) (v : ℚ), k ≤ j → j < k + fuel →
      vs.getD j none = some v → (firstKnownFromAux vs k fuel).isSome := by
  intro fuel
  induction fuel with
  | zero => intro k j v h1 h2 _; omega
  | succ f ih =>
    intro k j v h1 h2 hv
    unfold firstKnownFromAux
    cases hk : vs.getD k none with
    | some w => simp
    | none =>
      simp only
      by_cases hjk : j = k
      · rw [hjk, hk] at hv; exact absurd hv (by simp)
      · exact ih (k+1) j v (by omega) (by omega) hv

theorem fillCell_isSome (vs : List Val) (i : Nat) (hi : i < vs.length)
    (j : Nat) (v : ℚ) (hj : j < vs.length) (hv : vs.getD j none = some v) :
    (fillCell vs i).isSome := by
  unfold fillCell
  cases hci : vs.getD i none with
  | some w => simp
  | none =>
    simp only
    by_cases hlt : j < i
    · have h1 := lastKnownBefore_isSome vs i j v hlt hv
      cases h2 : lastKnownBefore vs i with
      | none => rw [h2] at h1; simp at h1
      | some p =>
        cases h3 : firstKnownFrom vs (i+1) <;> simp
    · have hji : i < j := by
        rcases Nat.lt_or_ge i j with h | h
        · exact h
        · have hij : j = i := by omega
          rw [hij, hci] at hv
          exact absurd hv (by simp)
      have h1 : (firstKnownFrom vs (i+1)).isSome := by
        unfold firstKnownFrom
        exact firstKnownFromAux_isSome vs (vs.length - (i+1)) (i+1) j v
          (by omega) (by omega) hv
      cases h2 : lastKnownBefore vs i with
      | none =>
        cases h3 : firstKnownFrom vs (i+1) with
        | none => rw [h3] at h1; simp at h1
        | some q => simp
      | some p =>
        cases h3 : firstKnownFrom vs (i+1) with
        | none => rw [h3] at h1; simp at h1
        | some q => simp

/-- Interpolation completeness: a column with at least one known sample has no
missing value after `interpolateColumn`. -/
theorem interpolateColumn_complete (vs : List Val)
    (h : ∃ j : Nat, ∃ v : ℚ, vs[j]? = some (some v)) :
    ∀ w ∈ interpolateColumn vs, w.isSome := by
  intro w hw
  obtain ⟨j, v, hj⟩ := h
  have hjlen : j < vs.length := by
    by_contra hc
    have hn : vs[j]? = none := by
      apply List.getElem?_eq_none
      omega
    rw [hn] at hj
    exact absurd hj (by simp)
  have hgd : vs.getD j none = some v := by
    rw [List.getD_eq_getElem?_getD, hj]
    rfl
  unfold interpolateColumn at hw
  obtain ⟨i, hi, rfl⟩ := List.mem_map.mp hw
  have hile : i < vs.length := List.mem_range.mp hi
  exact fillCell_isSome vs i hile j v hjlen hgd

/-- A single interior gap between two known neighbours is filled with their
linear interpolation (their midpoint, positions being consecutive). -/
theorem interpolateColumn_single_gap (vs : List Val) (i : Nat) (a b : ℚ)
    (ha : vs[i]? = some (some a)) (hgap : vs[i+1]? = some none)
    (hb : vs[i+2]? = some (some b)) :
    (interpolateColumn vs)[i+1]? = some (some ((a + b) / 2)) := by
  have hlen2 : i + 2 < vs.length := by
    by_contra hc
    have hn : vs[i+2]? = none := by
      apply List.getElem?_eq_none
      omega
    rw [hn] at hb
    exact absurd hb (by simp)
  have hgda : vs.getD i none = some a := by
    rw [List.getD_eq_getElem?_getD, ha]; rfl
  have hgdg : vs.getD (i+1) none = none := by
    rw [List.getD_eq_getElem?_getD, hgap]; rfl
  have hgdb : vs.getD (i+2) none = some b := by
    rw [List.getD_eq_getElem?_getD, hb]; rfl
  have hlast : lastKnownBefore vs (i+1) = some (i, a) := by
    unfold lastKnownBefore
    rw [hgda]
  have hfuel : vs.length - (i+2) = (vs.length - (i+3)) + 1 := by omega
  have hfirst : firstKnownFrom vs (i+2) = some (i+2, b) := by
    unfold firstKnownFrom
    rw [hfuel]
    unfold firstKnownFromAux
    rw [hgdb]
  have hcell : fillCell vs (i+1) = some ((a + b) / 2) := by
    unfold fillCell
    rw [hgdg]
    have e2 : i + 1 + 1 = i + 2 := by omega
    rw [e2]
    simp only [hlast, hfirst]
    congr 1
    push_cast
    have hne : ((i : ℚ) + 1 + 1) - i ≠ 0 := by ring_nf; norm_num
    field_simp
    ring
  unfold interpolateColumn
  rw [List.getElem?_map, List.getElem?_range (by omega)]
  simp [hcell]

/-! ### The v3d writer loop -/

theorem v3dWriteRows_cons_err (df : DataFrame) (ms : List String)
    (ft : Int × ℚ) (rest : List (Int × ℚ)) (e : String)
    (hd : v3dDataLine df ms ft.1 ft.2 = .error e) :
    v3dWriteRows df ms (ft :: rest) = ([], some e) := by
  simp only [v3dWriteRows, hd, v3dWriteStep]

theorem v3dWriteRows_cons_ok (df : DataFrame) (ms : List String)
    (ft : Int × ℚ) (rest : List (Int × ℚ)) (line : OutLine)
    (hd : v3dDataLine df ms ft.1 ft.2 = .ok line) :
    v3dWriteRows df ms (ft :: rest) =
      (line :: (v3dWriteRows df ms rest).1, (v3dWriteRows df ms rest).2) := by
  simp only [v3dWriteRows, hd, v3dWriteStep]

theorem v3dWriteRows_err_lt (df : DataFrame) (ms : List String) :
    ∀ pairs : List (Int × ℚ), (v3dWriteRows df ms pairs).2.isSome →
      (v3dWriteRows df ms pairs).1.length < pairs.length := by
  intro pairs
  induction pairs with
  | nil => intro h; simp [v3dWriteRows] at h
  | cons ft rest ih =>
    intro h
    cases hd : v3dDataLine df ms ft.1 ft.2 with
    | error e =>
      rw [v3dWriteRows_cons_err df ms ft rest e hd]
      simp
    | ok line =>
      rw [v3dWriteRows_cons_ok df ms ft rest line hd] at h ⊢
      simp only at h
      have := ih h
      simp only [List.length_cons]
      omega

theorem v3dWriteRows_none_len (df : DataFrame) (ms : List String) :
    ∀ pairs : List (Int × ℚ), (v3dWriteRows df ms pairs).2 = none →
      (v3dWriteRows df ms pairs).1.length = pairs.length := by
  intro pairs
  induction pairs with
  | nil => intro _; simp [v3dWriteRows]
  | cons ft rest ih =>
    intro h
    cases hd : v3dDataLine df ms ft.1 ft.2 with
    | error e =>
      rw [v3dWriteRows_cons_err df ms ft rest e hd] at h
      simp at h
    | ok line =>
      rw [v3dWriteRows_cons_ok df ms ft rest line hd] at h ⊢
      simp only at h
      simp [ih h]

theorem v3dWriteRows_mem (df : DataFrame) (ms : List String) :
    ∀ (pairs : List (Int × ℚ)) (line : OutLine),
      line ∈ (v3dWriteRows df ms pairs).1 →
      ∃ ft ∈ pairs, v3dDataLine df ms ft.1 ft.2 = .ok line := by
  intro pairs
  induction pairs with
  | nil => intro line h; simp [v3dWriteRows] at h
  | cons ft rest ih =>
    intro line h
    cases hd : v3dDataLine df ms ft.1 ft.2 with
    | error e =>
      rw [v3dWriteRows_cons_err df ms ft rest e hd] at h
      simp at h
    | ok l0 =>
      rw [v3dWriteRows_cons_ok df ms ft rest l0 hd] at h
      simp only [List.mem_cons] at h
      rcases h with rfl | h
      · exact ⟨ft, List.mem_cons_self _ _, hd⟩
      · obtain ⟨ft2, hft2, hd2⟩ := ih line h
        exact ⟨ft2, List.mem_cons_of_mem _ hft2, hd2⟩

theorem mem_zip_map (l : List Int) (g : Int → ℚ) :
    ∀ p ∈ l.zip (l.map g), p.2 = g p.1 := by
  induction l with
  | nil => intro p h; simp at h
  | cons x l ih =>
    intro p h
    rw [List.map_cons, List.zip_cons_cons] at h
    rcases List.mem_cons.mp h with rfl | h
    · rfl
    · exact ih p h

/-- Any data row of the v3d writer's output comes from the data loop, at a
frame/time pair drawn from the zipped index and time column. -/
theorem convert_df_dataRow_mem (df : DataFrame) (p : String) (r : ℚ)
    (u : String) (f : Int) (t : Val) (fields : List OutField)
    (h : OutLine.dataRow f t fields ∈ (convert_df_to_trc df p r u).lines) :
    ∃ ft ∈ (v3dProcess df).index.zip
        ((v3dProcess df).index.map (fun (x : Int) => (x : ℚ) / r)),
      v3dDataLine (v3dProcess df)
        (extractMarkers ((v3dProcess df).cols.map Prod.fst)) ft.1 ft.2 =
        .ok (.dataRow f t fields) := by
  simp only [convert_df_to_trc] at h
  split at h
  · simp at h
  · simp only [List.cons_append, List.nil_append, List.mem_cons] at h
    rcases h with h | h | h | h | h | h
    · exact absurd h (by simp)
    · exact absurd h (by simp)
    · exact absurd h (by simp)
    · exact absurd h (by simp)
    · exact absurd h (by simp)
    · exact v3dWriteRows_mem _ _ _ _ h

/-! ### Except-monad destructors -/

theorem except_bind_ok {α β : Type} {e : Except String α} {f : α → Except String β}
    {b : β} (h : (e >>= f) = .ok b) : ∃ a, e = .ok a ∧ f a = .ok b := by
  cases e with
  | error err => simp [Bind.bind, Except.bind] at h
  | ok a => exact ⟨a, rfl, by simpa [Bind.bind, Except.bind] using h⟩

theorem except_pure_ok {α : Type} {a b : α}
    (h : (pure a : Except String α) = .ok b) : a = b := by
  simpa [pure, Except.pure] using h

theorem mapE_ok_of_all {α β : Type} {f : α → Except String β} :
    ∀ l : List α, (∀ a ∈ l, ∃ b, f a = .ok b) → ∃ ys, mapE f l = .ok ys := by
  intro l
  induction l with
  | nil => intro _; exact ⟨[], rfl⟩
  | cons a l ih =>
    intro h
    obtain ⟨b, hb⟩ := h a (List.mem_cons_self _ _)
    obtain ⟨ys, hys⟩ := ih (fun x hx => h x (List.mem_cons_of_mem _ hx))
    refine ⟨b :: ys, ?_⟩
    simp only [mapE, hb, hys]

/-! ### Python indexing lemmas -/

theorem pyGetIdx_neg_one (l : List String) (x : String)
    (h : l.getLast? = some x) : pyGetIdx l (-1) = .ok x := by
  have hlen : 0 < l.length := by
    cases l with
    | nil => simp at h
    | cons a l => simp
  have hget : l[l.length - 1]? = some x := by
    rw [← List.getLast?_eq_getElem?]
    exact h
  have hn : pyIdxNorm l (-1) = -1 + l.length := by
    unfold pyIdxNorm
    rw [if_pos (by norm_num)]
  unfold pyGetIdx
  simp only [hn]
  rw [dif_pos ⟨by omega, by omega⟩]
  have h3 : ((-1 : Int) + l.length).toNat = l.length - 1 := by omega
  rw [List.get_eq_getElem]
  simp only [h3]
  rw [List.getElem?_eq_getElem (by omega)] at hget
  injection hget with hx
  rw [hx]

theorem pyGetIdx_ofNat (l : List String) (k : Nat) (hk : k < l.length) :
    pyGetIdx l (k : Int) = .ok (l.get ⟨k, hk⟩) := by
  have hn : pyIdxNorm l (k : Int) = (k : Int) := by
    unfold pyIdxNorm
    rw [if_neg (by omega)]
  unfold pyGetIdx
  simp only [hn]
  rw [dif_pos ⟨by omega, by simpa using hk⟩]
  simp only [Int.toNat_ofNat]

/-! ### Suffix inequalities for the generated column names -/

theorem append_append_ne (m m2 s t : String) (c d : Char)
    (hs : s.data.getLast? = some c) (ht : t.data.getLast? = some d)
    (hcd : c ≠ d) : m ++ s ≠ m2 ++ t := by
  have htne : t.data ≠ [] := by
    intro h0
    rw [h0] at ht
    simp at ht
  apply append_ne_of_last hs ?_ hcd
  rw [append_data_getLast? m2 t htne]
  exact ht

/-! ### TrcDf column update lemmas -/

theorem find?_map_update (cols : List (String × List Val)) (name other : String)
    (vs2 : List Val) (h : other ≠ name) :
    (cols.map (fun c => if c.1 = name then (name, vs2) else c)).find?
        (fun c => c.1 = other) =
      cols.find? (fun c => c.1 = other) := by
  induction cols with
  | nil => rfl
  | cons c cols ih =>
    by_cases hc : c.1 = name
    · rw [List.map_cons, if_pos hc]
      have h1 : ¬ ((name, vs2).1 = other) := fun e => h (e.symm)
      have h2 : ¬ (c.1 = other) := by
        rw [hc]
        exact fun e => h e.symm
      simp only [List.find?_cons, decide_eq_false h1, decide_eq_false h2]
      exact ih
    · rw [List.map_cons, if_neg hc]
      cases hp : decide (c.1 = other) with
      | true => simp only [List.find?_cons, hp]
      | false =>
        simp only [List.find?_cons, hp]
        exact ih

theorem TrcDf.setCol_numRows (df : TrcDf) (name : String) (vs : List Val) :
    (df.setCol name vs).numRows = df.numRows := by
  unfold TrcDf.setCol
  split <;> rfl

theorem TrcDf.setCol_find?_ne (df : TrcDf) (name other : String)
    (vs : List Val) (h : other ≠ name) :
    (df.setCol name vs).cols.find? (fun c => c.1 = other) =
      df.cols.find? (fun c => c.1 = other) := by
  unfold TrcDf.setCol
  by_cases hmem : name ∈ df.colNames
  · rw [if_pos hmem]
    exact find?_map_update df.cols name other _ h
  · rw [if_neg hmem]
    simp only [List.find?_append]
    have h1 : ¬ ((name, alignTo df.numRows vs).1 = other) := fun e => h e.symm
    simp [List.find?_cons, decide_eq_false h1]

theorem trcLoc_setCol_ne (df : TrcDf) (name other : String) (vs : List Val)
    (i : Nat) (h : other ≠ name) :
    trcLoc (df.setCol name vs) other i = trcLoc df other i := by
  unfold trcLoc
  rw [TrcDf.setCol_find?_ne df name other vs h]

theorem TrcDf.mem_colNames_setCol (df : TrcDf) (name x : String)
    (vs : List Val) :
    x ∈ (df.setCol name vs).colNames ↔ x ∈ df.colNames ∨ x = name := by
  unfold TrcDf.setCol
  by_cases hmem : name ∈ df.colNames
  · rw [if_pos hmem]
    have heq : (⟨df.numRows,
        df.cols.map (fun c => if c.1 = name then (name, alignTo df.numRows vs) else c)⟩ :
          TrcDf).colNames = df.colNames := by
      unfold TrcDf.colNames
      simp only [List.map_map]
      apply List.map_congr_left
      intro c _
      by_cases hc : c.1 = name
      · simp [hc]
      · simp [hc]
    rw [heq]
    constructor
    · exact Or.inl
    · rintro (hx | rfl)
      · exact hx
      · exact hmem
  · rw [if_neg hmem]
    unfold TrcDf.colNames
    simp [List.map_append]

theorem TrcDf.mem_cols_setCol (df : TrcDf) (name : String) (vs : List Val)
    (c : String × List Val) (hc : c ∈ (df.setCol name vs).cols) :
    c ∈ df.cols ∨ c = (name, alignTo df.numRows vs) := by
  unfold TrcDf.setCol at hc
  by_cases hmem : name ∈ df.colNames
  · rw [if_pos hmem] at hc
    simp only [List.mem_map] at hc
    obtain ⟨c0, hc0, hup⟩ := hc
    by_cases h0 : c0.1 = name
    · rw [if_pos h0] at hup
      exact Or.inr hup.symm
    · rw [if_neg h0] at hup
      exact Or.inl (hup ▸ hc0)
  · rw [if_neg hmem] at hc
    simp only [List.mem_append, List.mem_singleton] at hc
    exact hc

theorem mem_alignTo (n : Nat) (vs : List Val) (x : Val)
    (hx : x ∈ alignTo n vs) : x = none ∨ x ∈ vs := by
  unfold alignTo at hx
  simp only [List.mem_map] at hx
  obtain ⟨i, _, rfl⟩ := hx
  by_cases hi : i < vs.length
  · right
    rw [List.getD_eq_getElem?_getD, List.getElem?_eq_getElem hi]
    exact List.getElem_mem hi
  · left
    rw [List.getD_eq_getElem?_getD, List.getElem?_eq_none (by omega)]
    rfl

theorem mem_fileCol (f : AsciiFile) (name : String) (x : Val)
    (hx : x ∈ fileCol f name) :
    x = none ∨ ∃ row ∈ f.rows, x ∈ row := by
  unfold fileCol at hx
  cases hj : f.cols.findIdx? (fun c => c = name) with
  | none => rw [hj] at hx; simp at hx
  | some j =>
    rw [hj] at hx
    simp only [List.mem_map] at hx
    obtain ⟨row, hrow, rfl⟩ := hx
    by_cases hi : j < row.length
    · right
      refine ⟨row, hrow, ?_⟩
      rw [List.getD_eq_getElem?_getD, List.getElem?_eq_getElem hi]
      exact List.getElem_mem hi
    · left
      rw [List.getD_eq_getElem?_getD, List.getElem?_eq_none (by omega)]
      rfl

/-! ### Invariants of the trc_df build -/

/-- The `Frame#` and `Time` columns written at the start survive the marker
loops untouched. -/
def keyColsInv (n : Nat) (r : ℚ) (df : TrcDf) : Prop :=
  df.numRows = n ∧
  df.cols.find? (fun c => c.1 = "Frame#") = some ("Frame#", frameNumCol n) ∧
  df.cols.find? (fun c => c.1 = "Time") = some ("Time", timeCol n r)

/-- Marker columns only ever appear as complete `_X`/`_Y`/`_Z` triples. -/
def triplesInv (df : TrcDf) : Prop :=
  ∀ m : String, (m ++ "_X") ∈ df.colNames →
    (m ++ "_Y") ∈ df.colNames ∧ (m ++ "_Z") ∈ df.colNames

/-- Every number stored in a marker column of `trc_df` is a cell of one of the
two input files (no scaling, no sign change is ever applied to it). -/
def valsFromInv (S : ℚ → Prop) (df : TrcDf) : Prop :=
  ∀ c ∈ df.cols, c.1 = "Frame#" ∨ c.1 = "Time" ∨
    ∀ q : ℚ, some q ∈ c.2 → S q

theorem landmarkStep_shape {lm : AsciiFile} {st st2 : TrcDf × List String}
    {m : String} (h : landmarkStep lm st m = .ok st2) :
    st2 = st ∨ ∃ xc yc zc : String,
      st2 = (((st.1.setCol (m ++ "_X") (fileCol lm xc)).setCol (m ++ "_Y")
        (fileCol lm yc)).setCol (m ++ "_Z") (fileCol lm zc), st.2 ++ [m]) := by
  simp only [landmarkStep] at h
  obtain ⟨xc, hx, h⟩ := except_bind_ok h
  obtain ⟨yc, hy, h⟩ := except_bind_ok h
  obtain ⟨zc, hz, h⟩ := except_bind_ok h
  by_cases hcond : ¬ allNone (fileCol lm xc) = true
  · rw [if_pos hcond] at h
    exact Or.inr ⟨xc, yc, zc, (except_pure_ok h).symm⟩
  · rw [if_neg hcond] at h
    exact Or.inl (except_pure_ok h).symm

theorem targetStep_shape {tg : AsciiFile} {st st2 : TrcDf × List String}
    {m : String} (h : targetStep tg st m = .ok st2) :
    st2 = st ∨ ∃ xc yc zc : String,
      st2 = (((st.1.setCol (m ++ "_X") (fileCol tg xc)).setCol (m ++ "_Y")
        (fileCol tg yc)).setCol (m ++ "_Z") (fileCol tg zc), st.2 ++ [m]) := by
  simp only [targetStep] at h
  obtain ⟨idx, hidx, h⟩ := except_bind_ok h
  obtain ⟨xc, hx, h⟩ := except_bind_ok h
  obtain ⟨yc, hy, h⟩ := except_bind_ok h
  obtain ⟨zc, hz, h⟩ := except_bind_ok h
  by_cases hcond : ¬ allNone (fileCol tg xc) = true
  · rw [if_pos hcond] at h
    exact Or.inr ⟨xc, yc, zc, (except_pure_ok h).symm⟩
  · rw [if_neg hcond] at h
    exact Or.inl (except_pure_ok h).symm

/-- `append_ne_of_last` with everything explicit, for concrete instances. -/
theorem append_sfx_ne_name (m s t : String) (c d : Char)
    (hs : s.data.getLast? = some c) (ht : t.data.getLast? = some d)
    (hcd : c ≠ d) : m ++ s ≠ t :=
  append_ne_of_last hs ht hcd

theorem keyColsInv_setCol3 (n : Nat) (r : ℚ) (df : TrcDf) (m : String)
    (xs ys zs : List Val) (h : keyColsInv n r df) :
    keyColsInv n r
      (((df.setCol (m ++ "_X") xs).setCol (m ++ "_Y") ys).setCol
        (m ++ "_Z") zs) := by
  obtain ⟨h1, h2, h3⟩ := h
  have hfx : ("Frame#" : String) ≠ m ++ "_X" :=
    Ne.symm (append_sfx_ne_name m "_X" "Frame#" 'X' '#' (by decide) (by decide)
      (by decide))
  have hfy : ("Frame#" : String) ≠ m ++ "_Y" :=
    Ne.symm (append_sfx_ne_name m "_Y" "Frame#" 'Y' '#' (by decide) (by decide)
      (by decide))
  have hfz : ("Frame#" : String) ≠ m ++ "_Z" :=
    Ne.symm (append_sfx_ne_name m "_Z" "Frame#" 'Z' '#' (by decide) (by decide)
      (by decide))
  have htx : ("Time" : String) ≠ m ++ "_X" :=
    Ne.symm (append_sfx_ne_name m "_X" "Time" 'X' 'e' (by decide) (by decide)
      (by decide))
  have hty : ("Time" : String) ≠ m ++ "_Y" :=
    Ne.symm (append_sfx_ne_name m "_Y" "Time" 'Y' 'e' (by decide) (by decide)
      (by decide))
  have htz : ("Time" : String) ≠ m ++ "_Z" :=
    Ne.symm (append_sfx_ne_name m "_Z" "Time" 'Z' 'e' (by decide) (by decide)
      (by decide))
  refine ⟨?_, ?_, ?_⟩
  · rw [TrcDf.setCol_numRows, TrcDf.setCol_numRows, TrcDf.setCol_numRows]
    exact h1
  · rw [TrcDf.setCol_find?_ne _ _ _ _ hfz, TrcDf.setCol_find?_ne _ _ _ _ hfy,
      TrcDf.setCol_find?_ne _ _ _ _ hfx]
    exact h2
  · rw [TrcDf.setCol_find?_ne _ _ _ _ htz, TrcDf.setCol_find?_ne _ _ _ _ hty,
      TrcDf.setCol_find?_ne _ _ _ _ htx]
    exact h3

theorem triplesInv_setCol3 (df : TrcDf) (m : String) (xs ys zs : List Val)
    (h : triplesInv df) :
    triplesInv
      (((df.setCol (m ++ "_X") xs).setCol (m ++ "_Y") ys).setCol
        (m ++ "_Z") zs) := by
  intro m2 hm2
  rw [TrcDf.mem_colNames_setCol, TrcDf.mem_colNames_setCol,
    TrcDf.mem_colNames_setCol] at hm2
  have hxz : m2 ++ "_X" ≠ m ++ "_Z" :=
    append_append_ne m2 m "_X" "_Z" 'X' 'Z' (by decide) (by decide) (by decide)
  have hxy : m2 ++ "_X" ≠ m ++ "_Y" :=
    append_append_ne m2 m "_X" "_Y" 'X' 'Y' (by decide) (by decide) (by decide)
  rcases hm2 with ((hm2 | hm2) | hm2) | hm2
  · obtain ⟨hy2, hz2⟩ := h m2 hm2
    constructor
    · rw [TrcDf.mem_colNames_setCol, TrcDf.mem_colNames_setCol,
        TrcDf.mem_colNames_setCol]
      exact Or.inl (Or.inl (Or.inl hy2))
    · rw [TrcDf.mem_colNames_setCol, TrcDf.mem_colNames_setCol,
        TrcDf.mem_colNames_setCol]
      exact Or.inl (Or.inl (Or.inl hz2))
  · have hmm : m2 = m := string_append_cancel hm2
    subst hmm
    constructor
    · rw [TrcDf.mem_colNames_setCol, TrcDf.mem_colNames_setCol]
      exact Or.inl (Or.inr rfl)
    · rw [TrcDf.mem_colNames_setCol]
      exact Or.inr rfl
  · exact absurd hm2 hxy
  · exact absurd hm2 hxz

theorem valsFromInv_setCol3 (S : ℚ → Prop) (df : TrcDf) (m : String)
    (xs ys zs : List Val)
    (hxs : ∀ q : ℚ, some q ∈ xs → S q) (hys : ∀ q : ℚ, some q ∈ ys → S q)
    (hzs : ∀ q : ℚ, some q ∈ zs → S q) (h : valsFromInv S df) :
    valsFromInv S
      (((df.setCol (m ++ "_X") xs).setCol (m ++ "_Y") ys).setCol
        (m ++ "_Z") zs) := by
  have halign : ∀ (d : TrcDf) (vs : List Val),
      (∀ q : ℚ, some q ∈ vs → S q) →
      ∀ q : ℚ, some q ∈ alignTo d.numRows vs → S q := by
    intro d vs hvs q hq
    rcases mem_alignTo _ _ _ hq with h0 | h0
    · exact absurd h0 (by simp)
    · exact hvs q h0
  intro c hc
  rcases TrcDf.mem_cols_setCol _ _ _ _ hc with hc | rfl
  · rcases TrcDf.mem_cols_setCol _ _ _ _ hc with hc | rfl
    · rcases TrcDf.mem_cols_setCol _ _ _ _ hc with hc | rfl
      · exact h c hc
      · exact Or.inr (Or.inr (halign _ _ hxs))
    · exact Or.inr (Or.inr (halign _ _ hys))
  · exact Or.inr (Or.inr (halign _ _ hzs))

/-! ### Shapes of the ascii writer pieces -/

theorem trcLoc_ok {df : TrcDf} {name : String} {i : Nat} {v : Val}
    (h : trcLoc df name i = .ok v) :
    ∃ c, df.cols.find? (fun c => c.1 = name) = some c ∧ c ∈ df.cols ∧
      c.1 = name ∧ v = c.2.getD i none := by
  unfold trcLoc at h
  cases hf : df.cols.find? (fun c => c.1 = name) with
  | none => rw [hf] at h; simp at h
  | some c =>
    rw [hf] at h
    refine ⟨c, rfl, List.mem_of_find?_eq_some hf, ?_, ?_⟩
    · have := List.find?_some hf
      simpa using this
    · injection h with h2
      exact h2.symm

theorem asciiMarkerFields_shape {df : TrcDf} {i : Nat} {m : String}
    {fs : List OutField} (h : asciiMarkerFields df i m = .ok fs) :
    ((m ++ "_X") ∈ df.colNames ∧ ∃ x y z : Val,
      trcLoc df (m ++ "_X") i = .ok x ∧ trcLoc df (m ++ "_Y") i = .ok y ∧
      trcLoc df (m ++ "_Z") i = .ok z ∧ fs = [some x, some y, some z]) ∨
    ((m ++ "_X") ∉ df.colNames ∧ fs = [none, none, none]) := by
  unfold asciiMarkerFields at h
  by_cases hmem : (m ++ "_X") ∈ df.colNames
  · rw [if_pos hmem] at h
    obtain ⟨x, hx, h⟩ := except_bind_ok h
    obtain ⟨y, hy, h⟩ := except_bind_ok h
    obtain ⟨z, hz, h⟩ := except_bind_ok h
    exact Or.inl ⟨hmem, x, y, z, hx, hy, hz, (except_pure_ok h).symm⟩
  · rw [if_neg hmem] at h
    exact Or.inr ⟨hmem, (except_pure_ok h).symm⟩

theorem asciiDataRow_shape {df : TrcDf} {ms : List String} {i : Nat}
    {line : OutLine} (h : asciiDataRow df ms i = .ok line) :
    ∃ (frv : Val) (fr : Int) (t : Val) (groups : List (List OutField)),
      trcLoc df "Frame#" i = .ok frv ∧ pyInt frv = .ok fr ∧
      trcLoc df "Time" i = .ok t ∧
      mapE (asciiMarkerFields df i) ms = .ok groups ∧
      line = .dataRow fr t groups.flatten := by
  unfold asciiDataRow at h
  obtain ⟨frv, hfrv, h⟩ := except_bind_ok h
  obtain ⟨fr, hfr, h⟩ := except_bind_ok h
  obtain ⟨t, ht, h⟩ := except_bind_ok h
  obtain ⟨groups, hgroups, h⟩ := except_bind_ok h
  exact ⟨frv, fr, t, groups, hfrv, hfr, ht, hgroups, (except_pure_ok h).symm⟩

/-- Destructuring a successful `convert_to_trc` run into its two marker loops
and its data-row loop. -/
theorem convert_to_trc_shape {lm tg : AsciiFile} {o : String} {r : ℚ}
    {lines : List OutLine} (h : convert_to_trc lm tg o r = .ok lines) :
    ∃ (st1 st2 : TrcDf × List String) (rows : List OutLine),
      foldE (landmarkStep lm)
        (⟨lm.rows.length, [("Frame#", frameNumCol lm.rows.length),
          ("Time", timeCol lm.rows.length r)]⟩, [])
        (everyThird (filteredNames lm.markerLine)) = .ok st1 ∧
      foldE (targetStep tg) (st1.1, [])
        (everyThird (filteredNames tg.markerLine)) = .ok st2 ∧
      mapE (asciiDataRow st2.1 (st1.2 ++ st2.2))
        (List.range lm.rows.length) = .ok rows ∧
      lines =
        [.pathLine o, .metaNames,
         .metaVals r r lm.rows.length (st1.2 ++ st2.2).length "mm" r 1
           lm.rows.length,
         .markerRow (st1.2 ++ st2.2),
         .axisRow ((st1.2 ++ st2.2).flatMap
           (fun m => ["X" ++ m, "Y" ++ m, "Z" ++ m]))] ++ rows := by
  simp only [convert_to_trc] at h
  obtain ⟨st1, h1, h⟩ := except_bind_ok h
  obtain ⟨st2, h2, h⟩ := except_bind_ok h
  obtain ⟨rows, hrows, h⟩ := except_bind_ok h
  exact ⟨st1, st2, rows, h1, h2, hrows, (except_pure_ok h).symm⟩

/-- The initial `trc_df` satisfies all three invariants. -/
theorem trc0_invariants (n : Nat) (r : ℚ) (S : ℚ → Prop) :
    keyColsInv n r
      (⟨n, [("Frame#", frameNumCol n), ("Time", timeCol n r)]⟩ : TrcDf) ∧
    triplesInv
      (⟨n, [("Frame#", frameNumCol n), ("Time", timeCol n r)]⟩ : TrcDf) ∧
    valsFromInv S
      (⟨n, [("Frame#", frameNumCol n), ("Time", timeCol n r)]⟩ : TrcDf) := by
  refine ⟨⟨rfl, ?_, ?_⟩, ?_, ?_⟩
  · simp [List.find?_cons]
  · simp [List.find?_cons]
  · intro m hm
    unfold TrcDf.colNames at hm
    simp only [List.map_cons, List.map_nil, List.mem_cons,
      List.not_mem_nil] at hm
    rcases hm with hm | hm | hm
    · exact absurd hm
        (append_sfx_ne_name m "_X" "Frame#" 'X' '#' (by decide) (by decide)
          (by decide))
    · exact absurd hm
        (append_sfx_ne_name m "_X" "Time" 'X' 'e' (by decide) (by decide)
          (by decide))
    · exact hm.elim
  · intro c hc
    simp only [List.mem_cons, List.not_mem_nil] at hc
    rcases hc with rfl | rfl | hc
    · exact Or.inl rfl
    · exact Or.inr (Or.inl rfl)
    · exact hc.elim

/-- The invariants survive both marker loops. -/
theorem build_invariants {lm tg : AsciiFile} {r : ℚ}
    {st1 st2 : TrcDf × List String}
    (h1 : foldE (landmarkStep lm)
      (⟨lm.rows.length, [("Frame#", frameNumCol lm.rows.length),
        ("Time", timeCol lm.rows.length r)]⟩, [])
      (everyThird (filteredNames lm.markerLine)) = .ok st1)
    (h2 : foldE (targetStep tg) (st1.1, [])
      (everyThird (filteredNames tg.markerLine)) = .ok st2) :
    keyColsInv lm.rows.length r st2.1 ∧ triplesInv st2.1 ∧
    valsFromInv
      (fun q => (∃ row ∈ lm.rows, some q ∈ row) ∨ ∃ row ∈ tg.rows, some q ∈ row)
      st2.1 := by
  set S : ℚ → Prop :=
    fun q => (∃ row ∈ lm.rows, some q ∈ row) ∨ ∃ row ∈ tg.rows, some q ∈ row
    with hS
  set n := lm.rows.length with hn
  have hP : keyColsInv n r st1.1 ∧ triplesInv st1.1 ∧ valsFromInv S st1.1 := by
    refine foldE_preserve
      (fun st => keyColsInv n r st.1 ∧ triplesInv st.1 ∧ valsFromInv S st.1)
      ?_ _ _ _ h1 (trc0_invariants n r S)
    intro s a s2 hstep ⟨hk, ht, hv⟩
    rcases landmarkStep_shape hstep with rfl | ⟨xc, yc, zc, rfl⟩
    · exact ⟨hk, ht, hv⟩
    · have hcell : ∀ cname : String, ∀ q : ℚ,
          some q ∈ fileCol lm cname → S q := by
        intro cname q hq
        rcases mem_fileCol lm cname _ hq with h0 | ⟨row, hrow, hmem⟩
        · exact absurd h0 (by simp)
        · exact Or.inl ⟨row, hrow, hmem⟩
      exact ⟨keyColsInv_setCol3 n r s.1 a _ _ _ hk,
        triplesInv_setCol3 s.1 a _ _ _ ht,
        valsFromInv_setCol3 S s.1 a _ _ _ (hcell xc) (hcell yc) (hcell zc) hv⟩
  refine foldE_preserve
    (fun st => keyColsInv n r st.1 ∧ triplesInv st.1 ∧ valsFromInv S st.1)
    ?_ _ _ _ h2 hP
  intro s a s2 hstep ⟨hk, ht, hv⟩
  rcases targetStep_shape hstep with rfl | ⟨xc, yc, zc, rfl⟩
  · exact ⟨hk, ht, hv⟩
  · have hcell : ∀ cname : String, ∀ q : ℚ,
        some q ∈ fileCol tg cname → S q := by
      intro cname q hq
      rcases mem_fileCol tg cname _ hq with h0 | ⟨row, hrow, hmem⟩
      · exact absurd h0 (by simp)
      · exact Or.inr ⟨row, hrow, hmem⟩
    exact ⟨keyColsInv_setCol3 n r s.1 a _ _ _ hk,
      triplesInv_setCol3 s.1 a _ _ _ ht,
      valsFromInv_setCol3 S s.1 a _ _ _ (hcell xc) (hcell yc) (hcell zc) hv⟩

/-! ### Row-level facts -/

theorem trcLoc_frame (n : Nat) (r : ℚ) (df : TrcDf) (i : Nat)
    (hk : keyColsInv n r df) (hi : i < n) :
    trcLoc df "Frame#" i = .ok (some ((i : ℚ) + 1)) := by
  unfold trcLoc
  rw [hk.2.1]
  simp only
  congr 1
  unfold frameNumCol
  rw [List.getD_eq_getElem?_getD, List.getElem?_map, List.getElem?_range hi]
  rfl

theorem trcLoc_time (n : Nat) (r : ℚ) (df : TrcDf) (i : Nat)
    (hk : keyColsInv n r df) (hi : i < n) :
    trcLoc df "Time" i = .ok (some ((i : ℚ) / r)) := by
  unfold trcLoc
  rw [hk.2.2]
  simp only
  congr 1
  unfold timeCol
  rw [List.getD_eq_getElem?_getD, List.getElem?_map, List.getElem?_range hi]
  rfl

theorem pyInt_nat_succ (i : Nat) :
    pyInt (some ((i : ℚ) + 1)) = .ok ((i : Int) + 1) := by
  have hq : ((i : ℚ) + 1) = ((i + 1 : ℕ) : ℚ) := by push_cast; ring
  rw [hq]
  simp only [pyInt, Rat.num_natCast, Rat.den_natCast, Nat.cast_one,
    Int.tdiv_one, Except.ok.injEq]
  push_cast
  ring

theorem trcLoc_ok_of_mem (df : TrcDf) (name : String) (i : Nat)
    (h : name ∈ df.colNames) : ∃ v, trcLoc df name i = .ok v := by
  unfold TrcDf.colNames at h
  obtain ⟨c, hc, hc1⟩ := List.mem_map.mp h
  have hsome : (df.cols.find? (fun c => c.1 = name)).isSome := by
    rw [List.find?_isSome]
    exact ⟨c, hc, by simp [hc1]⟩
  cases hf : df.cols.find? (fun c => c.1 = name) with
  | none => rw [hf] at hsome; simp at hsome
  | some c2 => exact ⟨c2.2.getD i none, by unfold trcLoc; rw [hf]⟩

theorem asciiMarkerFields_ok (df : TrcDf) (i : Nat) (m : String)
    (ht : triplesInv df) : ∃ fs, asciiMarkerFields df i m = .ok fs := by
  unfold asciiMarkerFields
  by_cases hmem : (m ++ "_X") ∈ df.colNames
  · obtain ⟨hy, hz⟩ := ht m hmem
    obtain ⟨xv, hxv⟩ := trcLoc_ok_of_mem df (m ++ "_X") i hmem
    obtain ⟨yv, hyv⟩ := trcLoc_ok_of_mem df (m ++ "_Y") i hy
    obtain ⟨zv, hzv⟩ := trcLoc_ok_of_mem df (m ++ "_Z") i hz
    rw [if_pos hmem]
    refine ⟨[some xv, some yv, some zv], ?_⟩
    simp only [hxv, hyv, hzv, Bind.bind, Except.bind, pure, Except.pure]
  · rw [if_neg hmem]
    exact ⟨[none, none, none], rfl⟩

theorem asciiDataRow_ok (n : Nat) (r : ℚ) (df : TrcDf) (ms : List String)
    (i : Nat) (hk : keyColsInv n r df) (ht : triplesInv df) (hi : i < n) :
    ∃ line, asciiDataRow df ms i = .ok line := by
  obtain ⟨groups, hgroups⟩ :=
    mapE_ok_of_all ms (fun m _ => asciiMarkerFields_ok df i m ht)
  refine ⟨.dataRow ((i : Int) + 1) (some ((i : ℚ) / r)) groups.flatten, ?_⟩
  unfold asciiDataRow
  rw [trcLoc_frame n r df i hk hi]
  simp only [Bind.bind, Except.bind]
  rw [pyInt_nat_succ i]
  rw [trcLoc_time n r df i hk hi]
  rw [hgroups]
  rfl

/-- The frame and time of a successfully built ascii data row. -/
theorem asciiRow_frame_time {n : Nat} {r : ℚ} {df : TrcDf} {ms : List String}
    {i : Nat} {line : OutLine} (hk : keyColsInv n r df) (hi : i < n)
    (h : asciiDataRow df ms i = .ok line) :
    ∃ groups : List (List OutField),
      mapE (asciiMarkerFields df i) ms = .ok groups ∧
      line = .dataRow ((i : Int) + 1) (some ((i : ℚ) / r)) groups.flatten := by
  obtain ⟨frv, fr, t, groups, hfrv, hfr, ht2, hgroups, rfl⟩ :=
    asciiDataRow_shape h
  rw [trcLoc_frame n r df i hk hi] at hfrv
  injection hfrv with hfrv
  subst hfrv
  rw [pyInt_nat_succ i] at hfr
  injection hfr with hfr
  subst hfr
  rw [trcLoc_time n r df i hk hi] at ht2
  injection ht2 with ht2
  subst ht2
  exact ⟨groups, hgroups, rfl⟩

/-! ### The export header format: every marker name repeated three times -/

/-- The marker-name line lists each name once per coordinate column, i.e.
three times in a row (this is what lets `read_raw_v3d_export_file` zip names
against per-column file tags and axes). -/
def triple3 (m : String) : List String := [m, m, m]

theorem everyThird_triple3 (names : List String) :
    everyThird (names.flatMap triple3) = names := by
  induction names with
  | nil => rfl
  | cons m names ih =>
    rw [List.flatMap_cons]
    show everyThird (m :: m :: m :: names.flatMap triple3) = m :: names
    rw [everyThird, ih]

theorem findIdx?_flatMap_triple3 (m : String) :
    ∀ (names : List String) (k i : Nat), names.Nodup → names[k]? = some m →
      (names.flatMap triple3).findIdx? (fun y => y = m) i = some (i + 3 * k) := by
  intro names
  induction names with
  | nil => intro k i _ hk; simp at hk
  | cons n0 names ih =>
    intro k i hnd hk
    rw [List.flatMap_cons]
    show List.findIdx? (fun y => decide (y = m)) (n0 :: n0 :: n0 :: _) i = _
    cases k with
    | zero =>
      simp only [List.getElem?_cons_zero] at hk
      injection hk with hk
      subst hk
      rw [List.findIdx?_cons, if_pos (by simp)]
      simp
    | succ k =>
      simp only [List.getElem?_cons_succ] at hk
      have hmem : m ∈ names := by
        rcases List.getElem?_eq_some_iff.mp hk with ⟨hlt, hget⟩
        rw [← hget]
        exact List.getElem_mem hlt
      have hne : ¬ (n0 = m) := by
        intro e
        exact (List.nodup_cons.mp hnd).1 (e ▸ hmem)
      have hne2 : (decide (n0 = m)) = false := decide_eq_false hne
      rw [List.findIdx?_cons, if_neg (by simp [hne]), List.findIdx?_cons,
        if_neg (by simp [hne]), List.findIdx?_cons, if_neg (by simp [hne])]
      have hla : (([] : List String).append (names.flatMap triple3)) =
          names.flatMap triple3 := rfl
      rw [hla, ih k (i + 1 + 1 + 1) (List.Nodup.of_cons hnd) hk]
      congr 1
      omega

theorem pyListIndex_flatMap_triple3 (names : List String) (k : Nat) (m : String)
    (hnd : names.Nodup) (hk : names[k]? = some m) :
    pyListIndex (names.flatMap triple3) m = .ok (3 * k) := by
  unfold pyListIndex
  rw [findIdx?_flatMap_triple3 m names k 0 hnd hk]
  simp

/-! ### Success of the two marker loops on well-formed files -/

/-- A well-formed parsed export file with the given marker names: the header
marker line carries each name three times, the parsed table has `ITEM` plus
three columns per marker, no column name contains a tab, rows are rectangular
and non-empty, and every cell holds a number. -/
structure FileWF (f : AsciiFile) (names : List String) : Prop where
  markerLine : filteredNames f.markerLine = names.flatMap triple3
  colsLen : f.cols.length = 3 * names.length + 1
  noTab : ∀ c ∈ f.cols, '\t' ∉ c.data
  rowsNe : f.rows ≠ []
  rect : ∀ row ∈ f.rows, row.length = f.cols.length
  allData : ∀ row ∈ f.rows, ∀ v ∈ row, v.isSome

theorem fileCol_not_allNone (f : AsciiFile) (c : String) (hc : c ∈ f.cols)
    (hrowsNe : f.rows ≠ [])
    (hrect : ∀ row ∈ f.rows, row.length = f.cols.length)
    (hdata : ∀ row ∈ f.rows, ∀ v ∈ row, v.isSome) :
    ¬ allNone (fileCol f c) = true := by
  cases hj : f.cols.findIdx? (fun x => x = c) with
  | none =>
    exfalso
    rw [List.findIdx?_eq_none_iff] at hj
    have := hj c hc
    simp at this
  | some j =>
    have hfc : fileCol f c = f.rows.map (fun row => row.getD j none) := by
      unfold fileCol
      rw [hj]
    have hjlt : j < f.cols.length :=
      (List.findIdx?_eq_some_iff_findIdx_eq.mp hj).1
    rw [hfc]
    cases hrows : f.rows with
    | nil => exact absurd hrows hrowsNe
    | cons r0 rest =>
      intro hall
      unfold allNone at hall
      rw [List.all_eq_true] at hall
      have hr0 : r0 ∈ f.rows := by rw [hrows]; exact List.mem_cons_self _ _
      have hr0len : r0.length = f.cols.length := hrect r0 hr0
      have hcell : r0.getD j none ∈
          List.map (fun row => row.getD j none) (r0 :: rest) :=
        List.mem_map_of_mem _ (List.mem_cons_self _ _)
      have h1 := hall _ hcell
      have h2 : (r0.getD j none).isSome := by
        rw [List.getD_eq_getElem?_getD, List.getElem?_eq_getElem (by omega)]
        exact hdata r0 hr0 _ (List.getElem_mem (by omega))
      rw [Option.isNone_iff_eq_none] at h1
      rw [h1] at h2
      simp at h2

theorem getLast?_some_of_ne_nil {l : List String} (h : l ≠ []) :
    ∃ x, l.getLast? = some x := by
  cases hl : l.getLast? with
  | none =>
    exfalso
    have := List.getLast?_isSome.mpr h
    rw [hl] at this
    simp at this
  | some x => exact ⟨x, rfl⟩

theorem mem_of_getLast? {l : List String} {x : String}
    (h : l.getLast? = some x) : x ∈ l := by
  have hne : l ≠ [] := by
    intro h0
    rw [h0] at h
    simp at h
  rw [List.getLast?_eq_getElem?] at h
  rcases List.getElem?_eq_some_iff.mp h with ⟨hlt, hget⟩
  rw [← hget]
  exact List.getElem_mem hlt

theorem landmarkStep_runs {lm : AsciiFile} {names1 : List String}
    (hwf : FileWF lm names1) (m : String) :
    ∀ st : TrcDf × List String,
      ∃ df2, landmarkStep lm st m = .ok (df2, st.2 ++ [m]) := by
  intro st
  have hcolsne : lm.cols ≠ [] := by
    intro h0
    have hcl := hwf.colsLen
    rw [h0] at hcl
    simp at hcl
  obtain ⟨lastc, hlastc⟩ := getLast?_some_of_ne_nil hcolsne
  have hlastmem : lastc ∈ lm.cols := mem_of_getLast? hlastc
  have hnotab : ∀ sfx : String, '\t' ∈ sfx.data →
      pyIndexOr (lm.cols.filter (fun c => c ≠ "ITEM")) (m ++ sfx) = -1 := by
    intro sfx hsfx
    unfold pyIndexOr
    have hnone : (lm.cols.filter (fun c => c ≠ "ITEM")).findIdx?
        (fun c => c = m ++ sfx) = none := by
      rw [List.findIdx?_eq_none_iff]
      intro x hx
      have hxcols : x ∈ lm.cols := List.mem_of_mem_filter hx
      have hxnt : '\t' ∉ x.data := hwf.noTab x hxcols
      simp only [decide_eq_false_iff_not]
      intro e
      apply hxnt
      rw [e, String.data_append]
      exact List.mem_append_right _ hsfx
    rw [hnone]
  have hx : pyGetIdx lm.cols
      (pyIndexOr (lm.cols.filter (fun c => c ≠ "ITEM")) (m ++ "\tX")) =
      .ok lastc := by
    rw [hnotab "\tX" (by decide)]
    exact pyGetIdx_neg_one lm.cols lastc hlastc
  have hy : pyGetIdx lm.cols
      (pyIndexOr (lm.cols.filter (fun c => c ≠ "ITEM")) (m ++ "\tY")) =
      .ok lastc := by
    rw [hnotab "\tY" (by decide)]
    exact pyGetIdx_neg_one lm.cols lastc hlastc
  have hz : pyGetIdx lm.cols
      (pyIndexOr (lm.cols.filter (fun c => c ≠ "ITEM")) (m ++ "\tZ")) =
      .ok lastc := by
    rw [hnotab "\tZ" (by decide)]
    exact pyGetIdx_neg_one lm.cols lastc hlastc
  have hcond : ¬ allNone (fileCol lm lastc) = true :=
    fileCol_not_allNone lm lastc hlastmem hwf.rowsNe hwf.rect hwf.allData
  refine ⟨((st.1.setCol (m ++ "_X") (fileCol lm lastc)).setCol (m ++ "_Y")
    (fileCol lm lastc)).setCol (m ++ "_Z") (fileCol lm lastc), ?_⟩
  simp only [landmarkStep, hx, hy, hz, Bind.bind, Except.bind]
  rw [if_pos hcond]
  rfl

theorem targetStep_runs {tg : AsciiFile} {names2 : List String}
    (hwf : FileWF tg names2) (hnd : names2.Nodup) (m : String)
    (hm : m ∈ names2) :
    ∀ st : TrcDf × List String,
      ∃ df2, targetStep tg st m = .ok (df2, st.2 ++ [m]) := by
  intro st
  obtain ⟨k, hk⟩ := List.getElem?_of_mem hm
  have hklt : k < names2.length := by
    rcases List.getElem?_eq_some_iff.mp hk with ⟨hlt, _⟩
    exact hlt
  have hcl := hwf.colsLen
  have hidx : pyListIndex (filteredNames tg.markerLine) m = .ok (3 * k) := by
    rw [hwf.markerLine]
    exact pyListIndex_flatMap_triple3 names2 k m hnd hk
  have hxlt : 3 * k < tg.cols.length := by omega
  have hylt : 3 * k + 1 < tg.cols.length := by omega
  have hzlt : 3 * k + 2 < tg.cols.length := by omega
  have hgx : pyGetIdx tg.cols ((3 * k : Nat) : Int) =
      .ok (tg.cols.get ⟨3 * k, hxlt⟩) := pyGetIdx_ofNat tg.cols (3 * k) hxlt
  have hgy : pyGetIdx tg.cols ((3 * k + 1 : Nat) : Int) =
      .ok (tg.cols.get ⟨3 * k + 1, hylt⟩) :=
    pyGetIdx_ofNat tg.cols (3 * k + 1) hylt
  have hgz : pyGetIdx tg.cols ((3 * k + 2 : Nat) : Int) =
      .ok (tg.cols.get ⟨3 * k + 2, hzlt⟩) :=
    pyGetIdx_ofNat tg.cols (3 * k + 2) hzlt
  have hcond : ¬ allNone (fileCol tg (tg.cols.get ⟨3 * k, hxlt⟩)) = true :=
    fileCol_not_allNone tg _ (List.get_mem tg.cols (3 * k) hxlt) hwf.rowsNe
      hwf.rect hwf.allData
  refine ⟨((st.1.setCol (m ++ "_X")
      (fileCol tg (tg.cols.get ⟨3 * k, hxlt⟩))).setCol (m ++ "_Y")
      (fileCol tg (tg.cols.get ⟨3 * k + 1, hylt⟩))).setCol (m ++ "_Z")
      (fileCol tg (tg.cols.get ⟨3 * k + 2, hzlt⟩)), ?_⟩
  simp only [targetStep, hidx, Bind.bind, Except.bind, hgx, hgy, hgz]
  rw [if_pos hcond]
  rfl

/-- Recomposing a successful run of `convert_to_trc` from its pieces. -/
theorem convert_to_trc_ok_of {lm tg : AsciiFile} {o : String} {r : ℚ}
    {st1 st2 : TrcDf × List String} {rows : List OutLine}
    (h1 : foldE (landmarkStep lm)
      (⟨lm.rows.length, [("Frame#", frameNumCol lm.rows.length),
        ("Time", timeCol lm.rows.length r)]⟩, [])
      (everyThird (filteredNames lm.markerLine)) = .ok st1)
    (h2 : foldE (targetStep tg) (st1.1, [])
      (everyThird (filteredNames tg.markerLine)) = .ok st2)
    (hrows : mapE (asciiDataRow st2.1 (st1.2 ++ st2.2))
      (List.range lm.rows.length) = .ok rows) :
    convert_to_trc lm tg o r = .ok
      ([.pathLine o, .metaNames,
        .metaVals r r lm.rows.length (st1.2 ++ st2.2).length "mm" r 1
          lm.rows.length,
        .markerRow (st1.2 ++ st2.2),
        .axisRow ((st1.2 ++ st2.2).flatMap
          (fun m => ["X" ++ m, "Y" ++ m, "Z" ++ m]))] ++ rows) := by
  simp only [convert_to_trc, h1, h2, hrows, Bind.bind, Except.bind, pure,
    Except.pure]

/-- The frame numbers of the data rows of a written file, in file order. -/
def dataFrames (lines : List OutLine) : List Int :=
  lines.filterMap (fun l =>
    match l with
    | .dataRow f _ _ => some f
    | _ => none)

theorem dataFrames_mapE_rows {df : TrcDf} {ms : List String} {n : Nat} {r : ℚ}
    (hk : keyColsInv n r df) :
    ∀ (l : List Nat) (rows : List OutLine), (∀ i ∈ l, i < n) →
      mapE (asciiDataRow df ms) l = .ok rows →
      dataFrames rows = l.map (fun (i : Nat) => (i : Int) + 1) := by
  intro l
  induction l with
  | nil =>
    intro rows _ h
    simp only [mapE] at h
    injection h with h
    rw [← h]
    rfl
  | cons i l ih =>
    intro rows hbound h
    simp only [mapE] at h
    cases hf : asciiDataRow df ms i with
    | error e => rw [hf] at h; simp at h
    | ok line =>
      rw [hf] at h
      cases hm : mapE (asciiDataRow df ms) l with
      | error e => rw [hm] at h; simp at h
      | ok bs =>
        rw [hm] at h
        injection h with h
        subst h
        obtain ⟨groups, _, rfl⟩ :=
          asciiRow_frame_time hk (hbound i (List.mem_cons_self _ _)) hf
        show ((i : Int) + 1) :: dataFrames bs = _
        rw [ih bs (fun j hj => hbound j (List.mem_cons_of_mem _ hj)) hm]
        rfl

/-- Successful end-to-end run of the ascii converter on well-formed inputs:
both loops append all their markers and every data row is written. -/
theorem ascii_build_runs {lm tg : AsciiFile} {names1 names2 : List String}
    (hwf1 : FileWF lm names1) (hwf2 : FileWF tg names2)
    (hnd2 : names2.Nodup) (o : String) (r : ℚ) :
    ∃ rows : List OutLine,
      convert_to_trc lm tg o r = .ok
        ([.pathLine o, .metaNames,
          .metaVals r r lm.rows.length (names1.length + names2.length) "mm" r 1
            lm.rows.length,
          .markerRow (names1 ++ names2),
          .axisRow ((names1 ++ names2).flatMap
            (fun m => ["X" ++ m, "Y" ++ m, "Z" ++ m]))] ++ rows) := by
  set n := lm.rows.length with hn
  set trc0 : TrcDf :=
    ⟨n, [("Frame#", frameNumCol n), ("Time", timeCol n r)]⟩ with htrc0
  obtain ⟨df1, h1⟩ :=
    foldE_append_run names1 (fun m _ st => landmarkStep_runs hwf1 m st)
      (trc0, [])
  obtain ⟨df2, h2⟩ :=
    foldE_append_run names2 (fun m hm st => targetStep_runs hwf2 hnd2 m hm st)
      (df1, [])
  have h1e : foldE (landmarkStep lm) (trc0, [])
      (everyThird (filteredNames lm.markerLine)) = .ok (df1, names1) := by
    rw [hwf1.markerLine, everyThird_triple3]
    simpa using h1
  have h2e : foldE (targetStep tg) (df1, [])
      (everyThird (filteredNames tg.markerLine)) = .ok (df2, names2) := by
    rw [hwf2.markerLine, everyThird_triple3]
    simpa using h2
  have hinv := build_invariants h1e h2e
  obtain ⟨rows, hrows⟩ :=
    mapE_ok_of_all (List.range n)
      (fun i hi =>
        asciiDataRow_ok n r df2 (names1 ++ names2) i hinv.1 hinv.2.1
          (List.mem_range.mp hi))
  refine ⟨rows, ?_⟩
  have hc := convert_to_trc_ok_of (o := o) h1e h2e hrows
  simpa using hc

/-! ## Concrete example inputs and runs -/

/-- A landmarks file with the single marker `LM` at one frame, with
coordinates (1, 2, 3). -/
def exL5 : AsciiFile :=
  ⟨["", "LM", "LM", "LM"], ["ITEM", "X", "Y", "Z"],
   [[some 0, some 1, some 2, some 3]]⟩

/-- A targets file that also carries a marker named `LM` (a name collision
with `exL5`), with coordinates (10, 20, 30). -/
def exT5 : AsciiFile :=
  ⟨["", "LM", "LM", "LM"], ["ITEM", "X", "Y", "Z"],
   [[some 0, some 10, some 20, some 30]]⟩

/-- The full run of `convert_to_trc` on the colliding pair: it succeeds, the
targets loop silently overwrites the `LM` columns the landmarks loop stored
(none of the written coordinates is a landmarks value), and the header lists
`LM` twice.  (The values 0/10/20 instead of 10/20/30 are the source's
off-by-one positional column selection in the targets loop.) -/
theorem exRun5 :
    convert_to_trc exL5 exT5 "out.trc" 100 = .ok
      [.pathLine "out.trc", .metaNames,
       .metaVals 100 100 1 2 "mm" 100 1 1,
       .markerRow ["LM", "LM"],
       .axisRow ["XLM", "YLM", "ZLM", "XLM", "YLM", "ZLM"],
       .dataRow 1 (some 0)
         [some (some 0), some (some 10), some (some 20),
          some (some 0), some (some 10), some (some 20)]] := by
  simp [convert_to_trc, exL5, exT5, filteredNames, everyThird, foldE,
    landmarkStep, targetStep, mapE, asciiDataRow, asciiMarkerFields, trcLoc,
    TrcDf.setCol, TrcDf.colNames, alignTo, fileCol, allNone, pyIndexOr,
    pyGetIdx, pyIdxNorm, pyListIndex, pyInt, frameNumCol, timeCol,
    List.range_succ, List.range_zero, Bind.bind, Except.bind, pure,
    Except.pure, List.filter, List.findIdx?, List.find?, List.all,
    List.flatMap, List.getD]

theorem v3dDataLine_shape {df : DataFrame} {ms : List String} {frame : Int}
    {time : ℚ} {line : OutLine}
    (h : v3dDataLine df ms frame time = .ok line) :
    ∃ groups : List (List Val),
      mapE (v3dMarkerFields df frame) ms = .ok groups ∧
      line = .dataRow frame (some time) (groups.flatten.map some) := by
  unfold v3dDataLine at h
  obtain ⟨groups, hgroups, h⟩ := except_bind_ok h
  exact ⟨groups, hgroups, (except_pure_ok h).symm⟩

theorem v3dMarkerFields_shape {df : DataFrame} {f : Int} {m : String}
    {g : List Val} (h : v3dMarkerFields df f m = .ok g) :
    ∃ x y z : Val,
      v3dLoc df f (m ++ "_X") = .ok x ∧ v3dLoc df f (m ++ "_Y") = .ok y ∧
      v3dLoc df f (m ++ "_Z") = .ok z ∧
      g = [x, z, y.map (fun v => -v)] := by
  unfold v3dMarkerFields at h
  obtain ⟨x, hx, h⟩ := except_bind_ok h
  obtain ⟨y, hy, h⟩ := except_bind_ok h
  obtain ⟨z, hz, h⟩ := except_bind_ok h
  exact ⟨x, y, z, hx, hy, hz, (except_pure_ok h).symm⟩

theorem find?_map_snd (cols : List (String × List Val))
    (g : List Val → List Val) (c : String) :
    (cols.map (fun col => (col.1, g col.2))).find? (fun x => x.1 = c) =
      (cols.find? (fun x => x.1 = c)).map (fun col => (col.1, g col.2)) := by
  induction cols with
  | nil => rfl
  | cons col cols ih =>
    rw [List.map_cons, List.find?_cons, List.find?_cons]
    cases hp : decide (col.1 = c) with
    | true => simp only [hp]; rfl
    | false => simp only [hp]; exact ih

theorem getD_map_optmap (vs : List Val) (g : ℚ → ℚ) (i : Nat) :
    (vs.map (fun v => v.map g)).getD i none = (vs.getD i none).map g := by
  by_cases hi : i < vs.length
  · rw [List.getD_eq_getElem?_getD, List.getElem?_map,
      List.getElem?_eq_getElem hi, List.getD_eq_getElem?_getD,
      List.getElem?_eq_getElem hi]
    rfl
  · rw [List.getD_eq_getElem?_getD, List.getElem?_eq_none (by simpa using hi),
      List.getD_eq_getElem?_getD, List.getElem?_eq_none (by omega)]
    rfl

theorem getD_none_or_mem (vs : List Val) (i : Nat) :
    vs.getD i none = none ∨ vs.getD i none ∈ vs := by
  by_cases hi : i < vs.length
  · right
    rw [List.getD_eq_getElem?_getD, List.getElem?_eq_getElem hi]
    exact List.getElem_mem hi
  · left
    rw [List.getD_eq_getElem?_getD, List.getElem?_eq_none (by omega)]
    rfl

/-! ## The claims -/

/-- C5: column-name collisions between the landmarks and the targets source
are NOT surfaced.  On a pair of inputs both carrying marker `LM`, the ascii
converter succeeds with no warning or error: the targets loop silently
overwrites the columns the landmarks loop stored (the landmarks coordinates
1, 2, 3 appear nowhere in the written data row) and the header row lists `LM`
twice; likewise the v3d merge (`pd.concat(axis=1)`) silently keeps two
same-named columns side by side.  This contradicts the spec's requirement
that a duplicate marker name be surfaced as a warning/error. -/
theorem C5_collision_silently_overwritten :
    (∃ lines : List OutLine,
      convert_to_trc exL5 exT5 "out.trc" 100 = .ok lines ∧
      OutLine.markerRow ["LM", "LM"] ∈ lines ∧
      OutLine.dataRow 1 (some 0)
        [some (some 0), some (some 10), some (some 20),
         some (some 0), some (some 10), some (some 20)] ∈ lines) ∧
    get_all_v3d_trajectories ⟨[0], [("LM_X", [some 1])]⟩
        ⟨[0], [("LM_X", [some 9])]⟩ =
      ⟨[0], [("LM_X", [some 1]), ("LM_X", [some 9])]⟩ := by
  constructor
  · refine ⟨_, exRun5, ?_, ?_⟩ <;> simp
  · rfl

/-- C9: `convert_df_to_trc` never mutates the caller's DataFrame.  At the
object level, the function first copies (`df = trajectories_df.copy()`) and
every subsequent pandas call returns a fresh object, so after the body's
table operations the caller's object is unchanged, and the table the
serialization loop reads is exactly `v3dProcess` of the input (interpolated
and scaled on the private copy only). -/
theorem C9_input_not_mutated (h : List DataFrame) (r0 : Nat)
    (hr : r0 < h.length) :
    (convert_df_to_trc_heap h r0).1.getD r0 default = h.getD r0 default ∧
    (convert_df_to_trc_heap h r0).1.getD (convert_df_to_trc_heap h r0).2
      default = v3dProcess (h.getD r0 default) := by
  have hgd_last : ∀ (l : List DataFrame) (x : DataFrame),
      (l ++ [x]).getD l.length default = x := by
    intro l x
    rw [List.getD_eq_getElem?_getD, List.getElem?_append_right (le_refl _)]
    simp
  have hgd_lt : ∀ (l : List DataFrame) (x : DataFrame) (i : Nat),
      i < l.length → (l ++ [x]).getD i default = l.getD i default := by
    intro l x i hi
    rw [List.getD_eq_getElem?_getD, List.getElem?_append_left hi,
      ← List.getD_eq_getElem?_getD]
  by_cases hN : hasNaN (h.getD r0 default) = true
  · have hstep : convert_df_to_trc_heap h r0 =
        ((h ++ [h.getD r0 default] ++ [interpolateDF (h.getD r0 default)]) ++
          [scaleDF 1000 (interpolateDF (h.getD r0 default))],
         (h ++ [h.getD r0 default] ++
           [interpolateDF (h.getD r0 default)]).length) := by
      simp only [convert_df_to_trc_heap, pyAlloc]
      rw [hgd_last h (h.getD r0 default), if_pos hN,
        hgd_last (h ++ [h.getD r0 default]) (interpolateDF (h.getD r0 default))]
    rw [hstep]
    dsimp only
    constructor
    · rw [hgd_lt _ _ r0 (by simp; omega), hgd_lt _ _ r0 (by simp; omega),
        hgd_lt _ _ r0 hr]
    · rw [hgd_last]
      unfold v3dProcess v3dInterp
      rw [if_pos hN]
  · have hstep : convert_df_to_trc_heap h r0 =
        ((h ++ [h.getD r0 default]) ++
          [scaleDF 1000 (h.getD r0 default)],
         (h ++ [h.getD r0 default]).length) := by
      simp only [convert_df_to_trc_heap, pyAlloc]
      rw [hgd_last h (h.getD r0 default), if_neg hN,
        hgd_last h (h.getD r0 default)]
    rw [hstep]
    dsimp only
    constructor
    · rw [hgd_lt _ _ r0 (by simp; omega), hgd_lt _ _ r0 hr]
    · rw [hgd_last]
      unfold v3dProcess v3dInterp
      rw [if_neg hN]

/-- A trajectories table whose single column `M_Y` makes the marker loop
derive marker `M` and then fail looking up the absent `M_X` column mid-write. -/
def exC8 : DataFrame := ⟨[0], [("M_Y", [some 1])]⟩

/-- C8 counterexample: the claim "no truncated output file is left behind on
error" is false.  On `exC8` the run aborts with a `KeyError` during the first
data row, yet the five header lines have already been written to the output
file, which therefore holds a non-empty, truncated TRC file. -/
theorem C8_counterexample :
    (convert_df_to_trc exC8 "out.trc" 100 "mm").error.isSome = true ∧
    (convert_df_to_trc exC8 "out.trc" 100 "mm").lines ≠ [] ∧
    (convert_df_to_trc exC8 "out.trc" 100 "mm").lines.length = 5 := by
  have hrun : convert_df_to_trc exC8 "out.trc" 100 "mm" =
      ⟨[.pathLine "out.trc", .metaNames, .metaVals 100 100 1 1 "mm" 100 0 1,
        .markerRow ["M"], .axisRow ["X1", "Y1", "Z1"]],
       some "KeyError: M_X"⟩ := by
    simp [convert_df_to_trc, exC8, v3dProcess, v3dInterp, hasNaN, scaleDF,
      interpolateDF, extractMarkers, extractStep, pyEndsWith, pyDropLast2,
      v3dWriteRows, v3dWriteStep, v3dDataLine, v3dMarkerFields, v3dLoc, mapE,
      Bind.bind, Except.bind, pure, Except.pure, List.find?, List.findIdx?,
      List.range_succ, List.flatMap]
    decide
  rw [hrun]
  refine ⟨rfl, ?_, rfl⟩
  simp

/-- C8 (amended): the v3d writer streams directly into the final output file.
When the index is non-empty the five header lines are always written first;
if a data-row lookup then raises, the run stops with the file holding a
non-empty strict prefix of the complete output (a truncated file is left
behind), and only an error-free run produces all `5 + numFrames` lines. -/
theorem C8_truncated_output_on_error (df : DataFrame) (p : String) (r : ℚ)
    (u : String) (hne : df.index ≠ []) :
    ((convert_df_to_trc df p r u).error.isSome = true →
      (convert_df_to_trc df p r u).lines ≠ [] ∧
      (convert_df_to_trc df p r u).lines.length < 5 + df.index.length) ∧
    ((convert_df_to_trc df p r u).error = none →
      (convert_df_to_trc df p r u).lines.length = 5 + df.index.length) := by
  have hidx : (v3dProcess df).index = df.index := v3dProcess_index df
  obtain ⟨s0, hs0⟩ : ∃ s0, (v3dProcess df).index.head? = some s0 := by
    cases hh : (v3dProcess df).index.head? with
    | none =>
      rw [List.head?_eq_none_iff, hidx] at hh
      exact absurd hh hne
    | some s0 => exact ⟨s0, rfl⟩
  have hconv : convert_df_to_trc df p r u =
      ⟨[.pathLine p, .metaNames,
        .metaVals r r (v3dProcess df).index.length
          (extractMarkers ((v3dProcess df).cols.map Prod.fst)).length u r s0
          (v3dProcess df).index.length,
        .markerRow (extractMarkers ((v3dProcess df).cols.map Prod.fst)),
        .axisRow ((List.range
          (extractMarkers ((v3dProcess df).cols.map Prod.fst)).length).flatMap
          (fun i => ["X" ++ toString (i+1), "Y" ++ toString (i+1),
                     "Z" ++ toString (i+1)]))] ++
        (v3dWriteRows (v3dProcess df)
          (extractMarkers ((v3dProcess df).cols.map Prod.fst))
          ((v3dProcess df).index.zip
            ((v3dProcess df).index.map (fun (f : Int) => (f : ℚ) / r)))).1,
       (v3dWriteRows (v3dProcess df)
          (extractMarkers ((v3dProcess df).cols.map Prod.fst))
          ((v3dProcess df).index.zip
            ((v3dProcess df).index.map (fun (f : Int) => (f : ℚ) / r)))).2⟩ := by
    simp only [convert_df_to_trc, hs0]
  have hplen : ((v3dProcess df).index.zip
      ((v3dProcess df).index.map (fun (f : Int) => (f : ℚ) / r))).length =
      df.index.length := by
    rw [List.length_zip, List.length_map, min_self, hidx]
  rw [hconv]
  constructor
  · intro herr
    have hlt := v3dWriteRows_err_lt (v3dProcess df)
      (extractMarkers ((v3dProcess df).cols.map Prod.fst)) _ herr
    rw [hplen] at hlt
    constructor
    · simp
    · simp only [List.length_append, List.length_cons, List.length_nil]
      omega
  · intro hnoerr
    have hlen := v3dWriteRows_none_len (v3dProcess df)
      (extractMarkers ((v3dProcess df).cols.map Prod.fst)) _ hnoerr
    rw [hplen] at hlen
    simp only [List.length_append, List.length_cons, List.length_nil]
    omega

/-- C8 witness: the amended statement at the concrete table `exC8`. -/
theorem C8_witness :
    exC8.index ≠ [] ∧
    (((convert_df_to_trc exC8 "out.trc" 100 "mm").error.isSome = true →
      (convert_df_to_trc exC8 "out.trc" 100 "mm").lines ≠ [] ∧
      (convert_df_to_trc exC8 "out.trc" 100 "mm").lines.length <
        5 + exC8.index.length) ∧
    ((convert_df_to_trc exC8 "out.trc" 100 "mm").error = none →
      (convert_df_to_trc exC8 "out.trc" 100 "mm").lines.length =
        5 + exC8.index.length)) :=
  ⟨by decide, C8_truncated_output_on_error exC8 "out.trc" 100 "mm" (by decide)⟩

/-- C7 counterexample: a truncated file with fewer header lines than the
expected five does NOT make the importer fail with a ParseError: reading the
three-line file succeeds and returns an (empty-bodied, garbled-header) table. -/
theorem C7_counterexample :
    read_raw_v3d_export_file ["L0", "L1", "L2"] =
      .ok ⟨["Frame", "L0_L1_"], []⟩ := by
  rfl

/-- C7 (amended): the importer performs no explicit input validation and no
`ParseError` type exists in the code.  A file with at most the five expected
header lines parses successfully whatever its content (missing lines read as
empty strings); inconsistent marker-name and axis-label token counts are
silently truncated by `zip` to the shortest list instead of being rejected;
only the CSV reader itself can fail, with its generic tokenizing error. -/
theorem C7_no_explicit_validation :
    (∀ fileLines : List String, fileLines.length ≤ 5 →
      ∃ t : PdDf, read_raw_v3d_export_file fileLines = .ok t) ∧
    (∀ line0 line1 line4 : String,
      (v3dColumnHeadings line0 line1 line4).length =
        1 + min (pySplitTab line0).length
          (min ((pySplitTab line1).filter (fun s => s ≠ "")).length
            ((pySplitTab line4).filter (fun s => s ≠ "ITEM")).length)) := by
  constructor
  · intro fileLines hlen
    have hdrop : fileLines.drop 5 = [] := List.drop_eq_nil_of_le hlen
    refine ⟨⟨(v3dColumnHeadings
        (pyStrip (pyReadline fileLines 0)) (pyStrip (pyReadline fileLines 1))
        (pyStrip (pyReadline fileLines 4))).map
          (fun n => if n = "ITEM" then "Frame" else n), []⟩, ?_⟩
    simp [read_raw_v3d_export_file, hdrop, pdReadCsvTab, mapE, Bind.bind,
      Except.bind, pure, Except.pure, List.range_succ]
  · intro line0 line1 line4
    unfold v3dColumnHeadings
    simp [List.length_zip]
    omega

/-- C7 witness: the no-validation statement at a concrete one-line file. -/
theorem C7_witness :
    (["only line"] : List String).length ≤ 5 ∧
    ∃ t : PdDf, read_raw_v3d_export_file ["only line"] = .ok t :=
  ⟨by decide, C7_no_explicit_validation.1 ["only line"] (by decide)⟩

/-- C9 witness: the no-mutation statement on a one-object heap. -/
theorem C9_witness :
    0 < ([(⟨[0], [("M_X", [some 1])]⟩ : DataFrame)] : List DataFrame).length ∧
    ((convert_df_to_trc_heap [(⟨[0], [("M_X", [some 1])]⟩ : DataFrame)]
        0).1.getD 0 default =
      ([(⟨[0], [("M_X", [some 1])]⟩ : DataFrame)] :
        List DataFrame).getD 0 default ∧
     (convert_df_to_trc_heap [(⟨[0], [("M_X", [some 1])]⟩ : DataFrame)]
        0).1.getD
        (convert_df_to_trc_heap [(⟨[0], [("M_X", [some 1])]⟩ : DataFrame)]
          0).2 default =
      v3dProcess (([(⟨[0], [("M_X", [some 1])]⟩ : DataFrame)] :
        List DataFrame).getD 0 default)) :=
  ⟨by decide,
   C9_input_not_mutated [(⟨[0], [("M_X", [some 1])]⟩ : DataFrame)] 0
     (by decide)⟩

/-- A landmarks file whose marker `M` has data at the first frame and a
missing sample at the second. -/
def exL3 : AsciiFile :=
  ⟨["", "M", "M", "M"], ["ITEM", "X", "Y", "Z"],
   [[some 0, some 1, some 1, some 1], [some 1, none, none, none]]⟩

/-- A targets file with no markers (two data rows). -/
def exT3 : AsciiFile := ⟨[""], ["ITEM"], [[some 0], [some 1]]⟩

/-- C3 counterexample: the claim "after the writer's gap-filling step no
value is missing" is false for the ascii writer, which has no gap-filling
step at all: the missing second sample of marker `M` is written out as a NaN
field (`some none`) in the second data row. -/
theorem C3_counterexample :
    ∃ lines : List OutLine,
      convert_to_trc exL3 exT3 "out.trc" 100 = .ok lines ∧
      OutLine.dataRow 2 (some (1 / 100)) [some none, some none, some none] ∈
        lines := by
  refine ⟨[.pathLine "out.trc", .metaNames,
    .metaVals 100 100 2 1 "mm" 100 1 2, .markerRow ["M"],
    .axisRow ["XM", "YM", "ZM"],
    .dataRow 1 (some 0) [some (some 1), some (some 1), some (some 1)],
    .dataRow 2 (some (1 / 100)) [some none, some none, some none]], ?_, by simp⟩
  simp [convert_to_trc, exL3, exT3, filteredNames, everyThird, foldE,
    landmarkStep, targetStep, mapE, asciiDataRow, asciiMarkerFields, trcLoc,
    TrcDf.setCol, TrcDf.colNames, alignTo, fileCol, allNone, pyIndexOr,
    pyGetIdx, pyIdxNorm, pyListIndex, pyInt, frameNumCol, timeCol,
    List.range_succ, List.range_zero, Bind.bind, Except.bind, pure,
    Except.pure, List.filter, List.findIdx?, List.find?, List.all,
    List.flatMap, List.getD, Int.toNat_ofNat, List.getElem_cons_succ,
    List.getElem_cons_zero, show (((3 : Fin 4) : Nat) = 3) from rfl]
  norm_num [Int.tdiv_one]

/-- C3 (amended): only the v3d writer fills gaps, via
`interpolate(method='linear', limit_direction='both')`, and only in columns
holding at least one known sample: (i) such a column has no missing value
after interpolation (boundary gaps are filled from the nearest known
neighbour); (ii) a single interior missing sample between two known
neighbours becomes their linear interpolation (the midpoint, rows being
consecutive); (iii) when the table has any NaN the whole table is
interpolated column-wise.  Columns with no known sample stay missing, and
the ascii writer performs no gap filling at all (see the counterexample). -/
theorem C3_gap_filling :
    (∀ vs : List Val, (∃ j : Nat, ∃ v : ℚ, vs[j]? = some (some v)) →
      ∀ w ∈ interpolateColumn vs, w.isSome) ∧
    (∀ (vs : List Val) (i : Nat) (a b : ℚ),
      vs[i]? = some (some a) → vs[i+1]? = some none →
      vs[i+2]? = some (some b) →
      (interpolateColumn vs)[i+1]? = some (some ((a + b) / 2))) ∧
    (∀ df : DataFrame, hasNaN df = true →
      v3dInterp df =
        ⟨df.index, df.cols.map (fun c => (c.1, interpolateColumn c.2))⟩) := by
  refine ⟨interpolateColumn_complete, interpolateColumn_single_gap, ?_⟩
  intro df hdf
  unfold v3dInterp
  rw [if_pos hdf]
  rfl

/-- C3 witness: the completeness and single-gap statements evaluated on the
concrete column `[some 1, none, some 4]`, and the conditional interpolation
on a one-column table containing a NaN. -/
theorem C3_witness :
    ((∃ j : Nat, ∃ v : ℚ, ([some 1, none, some 4] : List Val)[j]? =
        some (some v)) ∧
      ∀ w ∈ interpolateColumn [some 1, none, some 4], w.isSome) ∧
    (interpolateColumn [some 1, none, some 4])[0+1]? =
      some (some ((1 + 4) / 2)) ∧
    v3dInterp ⟨[0], [("M_X", [none])]⟩ =
      ⟨[0], [("M_X", [interpolateColumn [none]].headD [])]⟩ := by
  refine ⟨⟨⟨0, 1, rfl⟩, C3_gap_filling.1 _ ⟨0, 1, rfl⟩⟩, ?_, ?_⟩
  · exact C3_gap_filling.2.1 [some 1, none, some 4] 0 1 4 rfl rfl rfl
  · have h := C3_gap_filling.2.2 ⟨[0], [("M_X", [none])]⟩ (by rfl)
    rw [h]
    rfl

/-- C10: the ascii converter emits exactly one data row per data row of the
landmarks file, numbered `Frame# = 1, 2, ...` consecutively — whatever the
targets file holds and whatever frame indices are recorded in the `ITEM`
column of either source (the targets row count and both files' frame indices
are unconstrained here). -/
theorem C10_one_row_per_landmark_row (lm tg : AsciiFile) (o : String) (r : ℚ)
    (lines : List OutLine) (h : convert_to_trc lm tg o r = .ok lines) :
    dataFrames lines =
      (List.range lm.rows.length).map (fun (i : Nat) => (i : Int) + 1) := by
  obtain ⟨st1, st2, rows, h1, h2, hrows, rfl⟩ := convert_to_trc_shape h
  have hinv := build_invariants h1 h2
  unfold dataFrames
  rw [List.filterMap_append]
  have hrowsdf : List.filterMap
      (fun l => match l with
        | OutLine.dataRow f _ _ => some f
        | _ => none) rows =
      (List.range lm.rows.length).map (fun (i : Nat) => (i : Int) + 1) := by
    have := dataFrames_mapE_rows hinv.1 (List.range lm.rows.length) rows
      (fun i hi => List.mem_range.mp hi) hrows
    unfold dataFrames at this
    exact this
  rw [hrowsdf]
  rfl

/-- C10 witness: the frame-number statement at the concrete colliding run. -/
theorem C10_witness :
    convert_to_trc exL5 exT5 "out.trc" 100 = .ok
      [.pathLine "out.trc", .metaNames,
       .metaVals 100 100 1 2 "mm" 100 1 1,
       .markerRow ["LM", "LM"],
       .axisRow ["XLM", "YLM", "ZLM", "XLM", "YLM", "ZLM"],
       .dataRow 1 (some 0)
         [some (some 0), some (some 10), some (some 20),
          some (some 0), some (some 10), some (some 20)]] ∧
    dataFrames
      [.pathLine "out.trc", .metaNames,
       .metaVals 100 100 1 2 "mm" 100 1 1,
       .markerRow ["LM", "LM"],
       .axisRow ["XLM", "YLM", "ZLM", "XLM", "YLM", "ZLM"],
       .dataRow 1 (some 0)
         [some (some 0), some (some 10), some (some 20),
          some (some 0), some (some 10), some (some 20)]] =
      (List.range exL5.rows.length).map (fun (i : Nat) => (i : Int) + 1) :=
  ⟨exRun5, C10_one_row_per_landmark_row exL5 exT5 "out.trc" 100 _ exRun5⟩

/-- A landmarks file with marker `M` at coordinates (7, 7, 7) in one frame. -/
def exL6 : AsciiFile :=
  ⟨["", "M", "M", "M"], ["ITEM", "X", "Y", "Z"],
   [[some 0, some 7, some 7, some 7]]⟩

/-- A targets file with no markers and one data row. -/
def exT6 : AsciiFile := ⟨[""], ["ITEM"], [[some 0]]⟩

/-- C6 counterexample: the claim "the Time value on the row with frame index
f equals f / frame_rate" is false for the ascii writer: its first data row
carries `Frame# = 1` but `Time = 0`, and `0 ≠ 1/100` at frame rate 100. -/
theorem C6_counterexample :
    (∃ lines : List OutLine,
      convert_to_trc exL6 exT6 "out.trc" 100 = .ok lines ∧
      OutLine.dataRow 1 (some 0)
        [some (some 7), some (some 7), some (some 7)] ∈ lines) ∧
    (0 : ℚ) ≠ (1 : ℚ) / 100 := by
  constructor
  · refine ⟨[.pathLine "out.trc", .metaNames,
      .metaVals 100 100 1 1 "mm" 100 1 1, .markerRow ["M"],
      .axisRow ["XM", "YM", "ZM"],
      .dataRow 1 (some 0) [some (some 7), some (some 7), some (some 7)]],
      ?_, by simp⟩
    simp [convert_to_trc, exL6, exT6, filteredNames, everyThird, foldE,
      landmarkStep, targetStep, mapE, asciiDataRow, asciiMarkerFields, trcLoc,
      TrcDf.setCol, TrcDf.colNames, alignTo, fileCol, allNone, pyIndexOr,
      pyGetIdx, pyIdxNorm, pyListIndex, pyInt, frameNumCol, timeCol,
      List.range_succ, List.range_zero, Bind.bind, Except.bind, pure,
      Except.pure, List.filter, List.findIdx?, List.find?, List.all,
      List.flatMap, List.getD, show (((3 : Fin 4) : Nat) = 3) from rfl]
  · norm_num

/-- C6 (amended): the v3d writer emits `Time = f / frame_rate` for the frame
index `f` it writes on the row; the ascii writer instead numbers rows
`Frame# = 1, 2, ...` while its time column starts at zero, so a written frame
number `f` carries `Time = (f − 1) / frame_rate`. -/
theorem C6_frame_time_mapping :
    (∀ (df : DataFrame) (p : String) (r : ℚ) (u : String) (f : Int) (t : Val)
        (fields : List OutField),
      OutLine.dataRow f t fields ∈ (convert_df_to_trc df p r u).lines →
      t = some ((f : ℚ) / r)) ∧
    (∀ (lm tg : AsciiFile) (o : String) (r : ℚ) (lines : List OutLine)
        (f : Int) (t : Val) (fields : List OutField),
      convert_to_trc lm tg o r = .ok lines →
      OutLine.dataRow f t fields ∈ lines →
      t = some (((f : ℚ) - 1) / r)) := by
  constructor
  · intro df p r u f t fields hmem
    obtain ⟨ft, hft, hline⟩ := convert_df_dataRow_mem df p r u f t fields hmem
    obtain ⟨groups, _, heq⟩ := v3dDataLine_shape hline
    injection heq with h1 h2 h3
    have hft2 := mem_zip_map _ _ _ hft
    rw [h2, hft2, h1]
  · intro lm tg o r lines f t fields hconv hmem
    obtain ⟨st1, st2, rows, h1, h2, hrows, rfl⟩ := convert_to_trc_shape hconv
    have hinv := build_invariants h1 h2
    rcases List.mem_append.mp hmem with hA | hR
    · simp at hA
    · obtain ⟨i, hi, hrow⟩ := mapE_ok_mem _ _ hrows _ hR
      have hilt : i < lm.rows.length := List.mem_range.mp hi
      obtain ⟨groups, _, heq⟩ := asciiRow_frame_time hinv.1 hilt hrow
      injection heq with h1 h2 h3
      rw [h2, h1]
      congr 1
      push_cast
      ring

/-- C6 witness: both halves instantiated on concrete runs — the v3d writer's
row at frame 0, and the first ascii row of the colliding example. -/
theorem C6_witness :
    (OutLine.dataRow 1 (some 0)
        [some (some 0), some (some 10), some (some 20),
         some (some 0), some (some 10), some (some 20)] ∈
      [OutLine.pathLine "out.trc", OutLine.metaNames,
       OutLine.metaVals 100 100 1 2 "mm" 100 1 1,
       OutLine.markerRow ["LM", "LM"],
       OutLine.axisRow ["XLM", "YLM", "ZLM", "XLM", "YLM", "ZLM"],
       OutLine.dataRow 1 (some 0)
         [some (some 0), some (some 10), some (some 20),
          some (some 0), some (some 10), some (some 20)]]) ∧
    (some 0 : Val) = some (((1 : ℚ) - 1) / 100) :=
  ⟨by simp,
   C6_frame_time_mapping.2 exL5 exT5 "out.trc" 100 _ 1 (some 0)
     [some (some 0), some (some 10), some (some 20),
      some (some 0), some (some 10), some (some 20)] exRun5 (by simp)⟩

/-- C4: for a landmarks file carrying M1 markers and a targets file carrying
M2 markers, with no marker-name collisions and data present for every marker,
the written TRC file's metadata row declares exactly M1 + M2 as NumMarkers
and the marker-label header row lists exactly the M1 + M2 marker names —
for the ascii pipeline on well-formed export files, and for the v3d pipeline
on the column-wise merge of two per-file tables. -/
theorem C4_marker_count :
    (∀ (lm tg : AsciiFile) (names1 names2 : List String) (o : String) (r : ℚ),
      FileWF lm names1 → FileWF tg names2 → (names1 ++ names2).Nodup →
      ∃ lines : List OutLine,
        convert_to_trc lm tg o r = .ok lines ∧
        lines[2]? = some (.metaVals r r lm.rows.length
          (names1.length + names2.length) "mm" r 1 lm.rows.length) ∧
        lines[3]? = some (.markerRow (names1 ++ names2)) ∧
        (names1 ++ names2).length = names1.length + names2.length) ∧
    (∀ (A B : DataFrame) (names1 names2 : List String) (p : String) (r : ℚ)
        (u : String),
      A.cols.map Prod.fst = names1.flatMap tripleColNames →
      B.cols.map Prod.fst = names2.flatMap tripleColNames →
      (names1 ++ names2).Nodup → A.index ≠ [] →
      ∃ s0 : Int,
        ((convert_df_to_trc (get_all_v3d_trajectories A B) p r u).lines)[2]? =
          some (.metaVals r r A.index.length (names1.length + names2.length)
            u r s0 A.index.length) ∧
        ((convert_df_to_trc (get_all_v3d_trajectories A B) p r u).lines)[3]? =
          some (.markerRow (names1 ++ names2))) := by
  constructor
  · intro lm tg names1 names2 o r hwf1 hwf2 hnd
    obtain ⟨rows, hrun⟩ :=
      ascii_build_runs hwf1 hwf2 (List.Nodup.of_append_right hnd) o r
    refine ⟨_, hrun, ?_, ?_, by simp⟩
    · rw [List.getElem?_append_left (by simp)]
      rfl
    · rw [List.getElem?_append_left (by simp)]
      rfl
  · intro A B names1 names2 p r u hA hB hnd hAne
    have hM : (v3dProcess (get_all_v3d_trajectories A B)).cols.map Prod.fst =
        (names1 ++ names2).flatMap tripleColNames := by
      rw [v3dProcess_colNames]
      show (A.cols ++ B.cols).map Prod.fst = _
      rw [List.map_append, hA, hB, ← List.flatMap_append]
    have hmk : extractMarkers
        ((v3dProcess (get_all_v3d_trajectories A B)).cols.map Prod.fst) =
        names1 ++ names2 := by
      rw [hM]
      exact extractMarkers_flatMap _ hnd
    have hidx : (v3dProcess (get_all_v3d_trajectories A B)).index = A.index := by
      rw [v3dProcess_index]
      rfl
    obtain ⟨s0, hs0⟩ :
        ∃ s0, (v3dProcess (get_all_v3d_trajectories A B)).index.head? =
          some s0 := by
      cases hh : (v3dProcess (get_all_v3d_trajectories A B)).index.head? with
      | none =>
        rw [List.head?_eq_none_iff, hidx] at hh
        exact absurd hh hAne
      | some s0 => exact ⟨s0, rfl⟩
    refine ⟨s0, ?_, ?_⟩
    · simp only [convert_df_to_trc, hs0]
      rw [List.getElem?_append_left (by simp)]
      simp [hmk, hidx]
    · simp only [convert_df_to_trc, hs0]
      rw [List.getElem?_append_left (by simp)]
      simp [hmk]

/-- A targets file with the single marker `TG` (no collision with `exL5`). -/
def exT4 : AsciiFile :=
  ⟨["", "TG", "TG", "TG"], ["ITEM", "X", "Y", "Z"],
   [[some 0, some 10, some 20, some 30]]⟩

/-- A per-file v3d table with the single marker `A`. -/
def exA4 : DataFrame :=
  ⟨[0], [("A_X", [some 1]), ("A_Y", [some 1]), ("A_Z", [some 1])]⟩

/-- A per-file v3d table with the single marker `B`. -/
def exB4 : DataFrame :=
  ⟨[0], [("B_X", [some 2]), ("B_Y", [some 2]), ("B_Z", [some 2])]⟩

theorem exL5_wf : FileWF exL5 ["LM"] :=
  ⟨by decide, by decide, by decide, by decide, by decide, by decide⟩

theorem exT4_wf : FileWF exT4 ["TG"] :=
  ⟨by decide, by decide, by decide, by decide, by decide, by decide⟩

/-- C4 witness: the marker-count statement at one landmarks marker plus one
targets marker, for both pipelines. -/
theorem C4_witness :
    ((["LM"] ++ ["TG"] : List String).Nodup ∧
     ∃ lines : List OutLine,
       convert_to_trc exL5 exT4 "out.trc" 100 = .ok lines ∧
       lines[2]? = some (.metaVals 100 100 exL5.rows.length
         ((["LM"] : List String).length + (["TG"] : List String).length) "mm"
         100 1 exL5.rows.length) ∧
       lines[3]? = some (.markerRow (["LM"] ++ ["TG"])) ∧
       ((["LM"] ++ ["TG"] : List String)).length =
         (["LM"] : List String).length + (["TG"] : List String).length) ∧
    (exA4.index ≠ [] ∧
     ∃ s0 : Int,
       ((convert_df_to_trc (get_all_v3d_trajectories exA4 exB4) "o" 100
         "mm").lines)[2]? =
         some (.metaVals 100 100 exA4.index.length
           ((["A"] : List String).length + (["B"] : List String).length) "mm"
           100 s0 exA4.index.length) ∧
       ((convert_df_to_trc (get_all_v3d_trajectories exA4 exB4) "o" 100
         "mm").lines)[3]? = some (.markerRow (["A"] ++ ["B"]))) :=
  ⟨⟨by decide,
    C4_marker_count.1 exL5 exT4 ["LM"] ["TG"] "out.trc" 100 exL5_wf exT4_wf
      (by decide)⟩,
   ⟨by decide,
    C4_marker_count.2 exA4 exB4 ["A"] ["B"] "o" 100 "mm" (by decide)
      (by decide) (by decide) (by decide)⟩⟩

/-- A landmarks file with marker `M` at (x, y, z) = (1, 2, 3). -/
def exL1 : AsciiFile :=
  ⟨["", "M", "M", "M"], ["ITEM", "X", "Y", "Z"],
   [[some 0, some 1, some 2, some 3]]⟩

/-- A targets file with no markers and one row. -/
def exT1 : AsciiFile := ⟨[""], ["ITEM"], [[some 0]]⟩

/-- C1 counterexample: for the ascii writer the claim is false.  With input
triple (1, 2, 3) for marker `M`, the emitted triple is (3, 3, 3): no axis
remap (and no sign flip) is applied, whereas the claim's (x, z, −y) after the
metres-to-millimetres conversion would be (1000, 3000, −2000) — indeed any
remapped triple would have a negative third slot for y = 2 > 0. -/
theorem C1_counterexample :
    (∃ lines : List OutLine,
      convert_to_trc exL1 exT1 "out.trc" 100 = .ok lines ∧
      OutLine.dataRow 1 (some 0)
        [some (some 3), some (some 3), some (some 3)] ∈ lines) ∧
    ([some (some 3), some (some 3), some (some 3)] : List OutField) ≠
      [some (some 1000), some (some 3000), some (some (-2000))] := by
  constructor
  · refine ⟨[.pathLine "out.trc", .metaNames,
      .metaVals 100 100 1 1 "mm" 100 1 1, .markerRow ["M"],
      .axisRow ["XM", "YM", "ZM"],
      .dataRow 1 (some 0) [some (some 3), some (some 3), some (some 3)]],
      ?_, by simp⟩
    simp [convert_to_trc, exL1, exT1, filteredNames, everyThird, foldE,
      landmarkStep, targetStep, mapE, asciiDataRow, asciiMarkerFields, trcLoc,
      TrcDf.setCol, TrcDf.colNames, alignTo, fileCol, allNone, pyIndexOr,
      pyGetIdx, pyIdxNorm, pyListIndex, pyInt, frameNumCol, timeCol,
      List.range_succ, List.range_zero, Bind.bind, Except.bind, pure,
      Except.pure, List.filter, List.findIdx?, List.find?, List.all,
      List.flatMap, List.getD, show (((3 : Fin 4) : Nat) = 3) from rfl]
  · intro h
    injection h with h1 _
    injection h1 with h2
    injection h2 with h3
    norm_num at h3

/-- C1 (amended): the axis remap (x, z, −y) is applied by the v3d writer
only.  Every data row the v3d writer emits consists, marker by marker, of the
triple (X, Z, −Y) of the processed (gap-filled, unit-scaled) table; the ascii
writer (`convert_to_trc`) applies no remap and emits each stored triple in
(X, Y, Z) order with no sign change. -/
theorem C1_axis_remap :
    (∀ (df : DataFrame) (p : String) (r : ℚ) (u : String) (f : Int) (t : Val)
        (fields : List OutField),
      OutLine.dataRow f t fields ∈ (convert_df_to_trc df p r u).lines →
      ∃ groups : List (List Val),
        fields = groups.flatten.map some ∧
        groups.length =
          (extractMarkers ((v3dProcess df).cols.map Prod.fst)).length ∧
        ∀ (j : Nat) (m : String),
          (extractMarkers ((v3dProcess df).cols.map Prod.fst))[j]? = some m →
          ∃ x y z : Val,
            v3dLoc (v3dProcess df) f (m ++ "_X") = .ok x ∧
            v3dLoc (v3dProcess df) f (m ++ "_Y") = .ok y ∧
            v3dLoc (v3dProcess df) f (m ++ "_Z") = .ok z ∧
            groups[j]? = some [x, z, y.map (fun v => -v)]) ∧
    (∀ (trc : TrcDf) (i : Nat) (m : String) (fs : List OutField),
      (m ++ "_X") ∈ trc.colNames →
      asciiMarkerFields trc i m = .ok fs →
      ∃ x y z : Val,
        trcLoc trc (m ++ "_X") i = .ok x ∧
        trcLoc trc (m ++ "_Y") i = .ok y ∧
        trcLoc trc (m ++ "_Z") i = .ok z ∧
        fs = [some x, some y, some z]) := by
  constructor
  · intro df p r u f t fields hmem
    obtain ⟨ft, hft, hline⟩ := convert_df_dataRow_mem df p r u f t fields hmem
    obtain ⟨groups, hgroups, heq⟩ := v3dDataLine_shape hline
    injection heq with h1 h2 h3
    subst h1
    refine ⟨groups, h3, mapE_ok_length _ _ hgroups, ?_⟩
    intro j m hjm
    obtain ⟨g, hg, hfm⟩ := mapE_ok_getElem _ _ hgroups j m hjm
    obtain ⟨x, y, z, hx, hy, hz, rfl⟩ := v3dMarkerFields_shape hfm
    exact ⟨x, y, z, hx, hy, hz, hg⟩
  · intro trc i m fs hmem hok
    rcases asciiMarkerFields_shape hok with ⟨_, x, y, z, hx, hy, hz, rfl⟩ |
      ⟨hnot, _⟩
    · exact ⟨x, y, z, hx, hy, hz, rfl⟩
    · exact absurd hmem hnot

/-- A one-marker v3d trajectories table with (x, y, z) = (1, 2, 3) at
frame 0. -/
def exDf1 : DataFrame :=
  ⟨[0], [("M_X", [some 1]), ("M_Y", [some 2]), ("M_Z", [some 3])]⟩

/-- The full v3d writer run on `exDf1`: the written data row carries the
remapped, unit-scaled triple (1000, 3000, −2000). -/
theorem exDf1_run :
    convert_df_to_trc exDf1 "out.trc" 100 "mm" =
      ⟨[.pathLine "out.trc", .metaNames, .metaVals 100 100 1 1 "mm" 100 0 1,
        .markerRow ["M"], .axisRow ["X1", "Y1", "Z1"],
        .dataRow 0 (some 0)
          [some (some 1000), some (some 3000), some (some (-2000))]],
       none⟩ := by
  simp [convert_df_to_trc, exDf1, v3dProcess, v3dInterp, hasNaN, scaleDF,
    interpolateDF, extractMarkers, extractStep, pyEndsWith, pyDropLast2,
    v3dWriteRows, v3dWriteStep, v3dDataLine, v3dMarkerFields, v3dLoc, mapE,
    Bind.bind, Except.bind, pure, Except.pure, List.find?, List.findIdx?,
    List.range_succ, List.flatMap]
  norm_num
  decide

/-- C1 witness: both halves of the remap statement at concrete inputs — the
v3d data row of `exDf1`, and one stored ascii marker triple. -/
theorem C1_witness :
    (OutLine.dataRow 0 (some 0)
        [some (some 1000), some (some 3000), some (some (-2000))] ∈
      (convert_df_to_trc exDf1 "out.trc" 100 "mm").lines ∧
      ∃ groups : List (List Val),
        [some (some 1000), some (some 3000), some (some (-2000))] =
          groups.flatten.map some ∧
        groups.length =
          (extractMarkers ((v3dProcess exDf1).cols.map Prod.fst)).length ∧
        ∀ (j : Nat) (m : String),
          (extractMarkers ((v3dProcess exDf1).cols.map Prod.fst))[j]? =
            some m →
          ∃ x y z : Val,
            v3dLoc (v3dProcess exDf1) 0 (m ++ "_X") = .ok x ∧
            v3dLoc (v3dProcess exDf1) 0 (m ++ "_Y") = .ok y ∧
            v3dLoc (v3dProcess exDf1) 0 (m ++ "_Z") = .ok z ∧
            groups[j]? = some [x, z, y.map (fun v => -v)]) ∧
    (("M" ++ "_X") ∈
        (⟨1, [("M_X", [some 4]), ("M_Y", [some 5]),
          ("M_Z", [some 6])]⟩ : TrcDf).colNames ∧
      ∃ x y z : Val,
        trcLoc ⟨1, [("M_X", [some 4]), ("M_Y", [some 5]),
          ("M_Z", [some 6])]⟩ ("M" ++ "_X") 0 = .ok x ∧
        trcLoc ⟨1, [("M_X", [some 4]), ("M_Y", [some 5]),
          ("M_Z", [some 6])]⟩ ("M" ++ "_Y") 0 = .ok y ∧
        trcLoc ⟨1, [("M_X", [some 4]), ("M_Y", [some 5]),
          ("M_Z", [some 6])]⟩ ("M" ++ "_Z") 0 = .ok z ∧
        [some x, some y, some z] =
          ([some (some 4), some (some 5), some (some 6)] :
            List OutField)) := by
  have hmem : OutLine.dataRow 0 (some 0)
      [some (some 1000), some (some 3000), some (some (-2000))] ∈
      (convert_df_to_trc exDf1 "out.trc" 100 "mm").lines := by
    rw [exDf1_run]
    simp
  have hm : ("M" ++ "_X") ∈
      (⟨1, [("M_X", [some 4]), ("M_Y", [some 5]),
        ("M_Z", [some 6])]⟩ : TrcDf).colNames := by
    decide
  have hfs : asciiMarkerFields
      ⟨1, [("M_X", [some 4]), ("M_Y", [some 5]), ("M_Z", [some 6])]⟩ 0 "M" =
      .ok [some (some 4), some (some 5), some (some 6)] := by
    simp [asciiMarkerFields, trcLoc, TrcDf.colNames, Bind.bind, Except.bind,
      pure, Except.pure, List.find?, List.getD]
  refine ⟨⟨hmem, C1_axis_remap.1 exDf1 "out.trc" 100 "mm" 0 (some 0) _ hmem⟩,
    hm, ?_⟩
  obtain ⟨x, y, z, hx, hy, hz, hfs2⟩ :=
    C1_axis_remap.2 _ 0 "M" [some (some 4), some (some 5), some (some 6)] hm
      hfs
  exact ⟨x, y, z, hx, hy, hz, hfs2.symm⟩

/-- A landmarks file with marker `M` whose coordinates are all 4 (metres). -/
def exL2 : AsciiFile :=
  ⟨["", "M", "M", "M"], ["ITEM", "X", "Y", "Z"],
   [[some 0, some 4, some 4, some 4]]⟩

/-- C2 counterexample: for the ascii writer the claim is false: the input
coordinate 4 is emitted as 4 — no metres-to-millimetres factor is applied —
while the claim requires 4 × 1000. -/
theorem C2_counterexample :
    (∃ lines : List OutLine,
      convert_to_trc exL2 exT1 "out.trc" 100 = .ok lines ∧
      OutLine.dataRow 1 (some 0)
        [some (some 4), some (some 4), some (some 4)] ∈ lines) ∧
    (4 : ℚ) ≠ 4 * 1000 := by
  constructor
  · refine ⟨[.pathLine "out.trc", .metaNames,
      .metaVals 100 100 1 1 "mm" 100 1 1, .markerRow ["M"],
      .axisRow ["XM", "YM", "ZM"],
      .dataRow 1 (some 0) [some (some 4), some (some 4), some (some 4)]],
      ?_, by simp⟩
    simp [convert_to_trc, exL2, exT1, filteredNames, everyThird, foldE,
      landmarkStep, targetStep, mapE, asciiDataRow, asciiMarkerFields, trcLoc,
      TrcDf.setCol, TrcDf.colNames, alignTo, fileCol, allNone, pyIndexOr,
      pyGetIdx, pyIdxNorm, pyListIndex, pyInt, frameNumCol, timeCol,
      List.range_succ, List.range_zero, Bind.bind, Except.bind, pure,
      Except.pure, List.filter, List.findIdx?, List.find?, List.all,
      List.flatMap, List.getD, show (((3 : Fin 4) : Nat) = 3) from rfl]
  · norm_num

/-- C2 (amended): the exact ×1000 metres-to-millimetres scaling is applied by
the v3d writer only: every cell the v3d writer serializes is exactly 1000
times the corresponding post-interpolation cell (both through `df.loc`
lookups and at the level of the full column table).  The ascii writer applies
no scaling whatsoever: every number appearing in a coordinate slot of its
output is literally a cell of one of the two input files. -/
theorem C2_unit_scaling :
    (∀ (df : DataFrame) (f : Int) (c : String) (v : Val),
      v3dLoc (v3dInterp df) f c = .ok v →
      v3dLoc (v3dProcess df) f c = .ok (v.map (fun q => q * 1000))) ∧
    (∀ df : DataFrame,
      (v3dProcess df).cols =
        (v3dInterp df).cols.map
          (fun col => (col.1, col.2.map (fun v => v.map (fun q => q * 1000))))) ∧
    (∀ (lm tg : AsciiFile) (o : String) (r : ℚ) (lines : List OutLine)
        (f : Int) (t : Val) (fields : List OutField) (q : ℚ),
      convert_to_trc lm tg o r = .ok lines →
      OutLine.dataRow f t fields ∈ lines →
      some (some q) ∈ fields →
      (∃ row ∈ lm.rows, some q ∈ row) ∨ ∃ row ∈ tg.rows, some q ∈ row) := by
  have hmap : ∀ df : DataFrame, (v3dProcess df).cols =
      (v3dInterp df).cols.map
        (fun col => (col.1, col.2.map (fun v => v.map (fun q => q * 1000)))) :=
    fun _ => rfl
  have hidx2 : ∀ df : DataFrame,
      (v3dProcess df).index = (v3dInterp df).index := fun _ => rfl
  have v3dLoc_ok : ∀ {df : DataFrame} {f : Int} {c : String} {v : Val},
      v3dLoc df f c = .ok v →
      ∃ col i, df.cols.find? (fun x => x.1 = c) = some col ∧
        df.index.findIdx? (fun x => x = f) = some i ∧
        v = col.2.getD i none := by
    intro df f c v h
    unfold v3dLoc at h
    cases hf : df.cols.find? (fun x => x.1 = c) with
    | none => rw [hf] at h; simp at h
    | some col =>
      rw [hf] at h
      cases hi : df.index.findIdx? (fun x => x = f) with
      | none => rw [hi] at h; simp at h
      | some i =>
        rw [hi] at h
        injection h with hv
        exact ⟨col, i, rfl, rfl, hv.symm⟩
  have v3dLoc_intro : ∀ (df : DataFrame) (f : Int) (c : String)
      (col : String × List Val) (i : Nat),
      df.cols.find? (fun x => x.1 = c) = some col →
      df.index.findIdx? (fun x => x = f) = some i →
      v3dLoc df f c = .ok (col.2.getD i none) := by
    intro df f c col i hf hi
    unfold v3dLoc
    rw [hf, hi]
  refine ⟨?_, hmap, ?_⟩
  · intro df f c v h
    obtain ⟨col, i, hf, hi, hv⟩ := v3dLoc_ok h
    have hf2 : (v3dProcess df).cols.find? (fun x => x.1 = c) =
        some (col.1, col.2.map (fun v => v.map (fun q => q * 1000))) := by
      rw [hmap df, find?_map_snd, hf]
      rfl
    have hi2 : (v3dProcess df).index.findIdx? (fun x => x = f) = some i := by
      rw [hidx2 df]
      exact hi
    calc v3dLoc (v3dProcess df) f c
        = .ok ((col.2.map (fun v => v.map (fun q => q * 1000))).getD i none) :=
          v3dLoc_intro (v3dProcess df) f c _ i hf2 hi2
      _ = .ok (v.map (fun q => q * 1000)) := by rw [getD_map_optmap, hv]
  · intro lm tg o r lines f t fields q hconv hmem hq
    obtain ⟨st1, st2, rows, h1, h2, hrows, rfl⟩ := convert_to_trc_shape hconv
    have hinv := build_invariants h1 h2
    rcases List.mem_append.mp hmem with hA | hR
    · simp at hA
    · obtain ⟨i, _, hrow⟩ := mapE_ok_mem _ _ hrows _ hR
      obtain ⟨frv, fr, t2, groups, _, _, _, hgroups, heq⟩ :=
        asciiDataRow_shape hrow
      injection heq with hfr2 ht2 hfields
      subst hfields
      obtain ⟨g, hg, hqg⟩ := List.mem_flatten.mp hq
      obtain ⟨m, _, hfm⟩ := mapE_ok_mem _ _ hgroups _ hg
      have hloc : ∀ sfx : String, sfx = "_X" ∨ sfx = "_Y" ∨ sfx = "_Z" →
          ∀ w : Val, trcLoc st2.1 (m ++ sfx) i = .ok w → w = some q →
          (∃ row ∈ lm.rows, some q ∈ row) ∨ ∃ row ∈ tg.rows, some q ∈ row := by
        intro sfx hsfx w hw hwq
        obtain ⟨col, _, hcol, hname, hval⟩ := trcLoc_ok hw
        rcases hinv.2.2 col hcol with hfr | hfr | hfr
        · exfalso
          rw [hname] at hfr
          rcases hsfx with rfl | rfl | rfl
          · exact append_sfx_ne_name m "_X" "Frame#" 'X' '#' (by decide)
              (by decide) (by decide) hfr
          · exact append_sfx_ne_name m "_Y" "Frame#" 'Y' '#' (by decide)
              (by decide) (by decide) hfr
          · exact append_sfx_ne_name m "_Z" "Frame#" 'Z' '#' (by decide)
              (by decide) (by decide) hfr
        · exfalso
          rw [hname] at hfr
          rcases hsfx with rfl | rfl | rfl
          · exact append_sfx_ne_name m "_X" "Time" 'X' 'e' (by decide)
              (by decide) (by decide) hfr
          · exact append_sfx_ne_name m "_Y" "Time" 'Y' 'e' (by decide)
              (by decide) (by decide) hfr
          · exact append_sfx_ne_name m "_Z" "Time" 'Z' 'e' (by decide)
              (by decide) (by decide) hfr
        · apply hfr q
          have hgd : col.2.getD i none = some q := by
            rw [← hval]
            exact hwq
          rcases getD_none_or_mem col.2 i with h0 | h0
          · rw [h0] at hgd
            exact absurd hgd (by simp)
          · rw [hgd] at h0
            exact h0
      rcases asciiMarkerFields_shape hfm with
        ⟨_, x, y, z, hx, hy, hz, rfl⟩ | ⟨_, rfl⟩
      · simp only [List.mem_cons, List.not_mem_nil, or_false] at hqg
        rcases hqg with hqg | hqg | hqg
        · exact hloc "_X" (Or.inl rfl) x hx (by injection hqg with h0; exact h0.symm)
        · exact hloc "_Y" (Or.inr (Or.inl rfl)) y hy
            (by injection hqg with h0; exact h0.symm)
        · exact hloc "_Z" (Or.inr (Or.inr rfl)) z hz
            (by injection hqg with h0; exact h0.symm)
      · simp at hqg

/-- C2 witness: the scaling statement at a concrete lookup of `exDf1`
(1 metre becomes 1000 millimetres), and the no-scaling statement at the
concrete ascii run (the emitted 10 is a raw targets-file cell). -/
theorem C2_witness :
    (v3dLoc (v3dInterp exDf1) 0 "M_X" = .ok (some 1) ∧
     v3dLoc (v3dProcess exDf1) 0 "M_X" =
       .ok ((some 1 : Val).map (fun q => q * 1000))) ∧
    ((∃ row ∈ exL5.rows, some (10 : ℚ) ∈ row) ∨
      ∃ row ∈ exT5.rows, some (10 : ℚ) ∈ row) := by
  have hv : v3dLoc (v3dInterp exDf1) 0 "M_X" = .ok (some 1) := by
    simp [v3dInterp, hasNaN, exDf1, v3dLoc, List.find?, List.findIdx?,
      List.getD]
  refine ⟨⟨hv, C2_unit_scaling.1 exDf1 0 "M_X" (some 1) hv⟩, ?_⟩
  exact C2_unit_scaling.2.2 exL5 exT5 "out.trc" 100 _ 1 (some 0)
    [some (some 0), some (some 10), some (some 20),
     some (some 0), some (some 10), some (some 20)] 10 exRun5 (by simp)
    (by simp)

end Pdsv
